import Mathlib

/-!
Verification of the color library (`src/color.ts`).

Shallow embedding conventions:
* JS numbers are modelled as rationals (`ℚ`); `Math.round` is `jround`
  (round half up, i.e. `⌊x + 1/2⌋`), `Math.floor` is `Int.floor`, the JS `%`
  remainder is `jsRem` (truncated division remainder).
* Strings holding hex colors are modelled as `List Char`.
* `Number.prototype.toString(16)` is modelled (`intToHex16`) for integer
  values, which is what the library feeds it (RGB byte values).
* Throwing code paths are modelled with `Option` (factories) or as leaving
  state unchanged (internal cache calculators, where a throw aborts before
  any mutation).
* The mutable class `Color` is a record of optional representation
  containers; getters that populate caches are modelled as functions
  returning the read value together with the updated instance.
-/

namespace ColorTs

/-- An RGB color (`interface RGB`); components conceptually 0 to 255. -/
structure RGB where
  r : ℚ
  g : ℚ
  b : ℚ
deriving DecidableEq

/-- An HSL color (`interface HSL`); components conceptually 0 to 1. -/
structure HSL where
  h : ℚ
  s : ℚ
  l : ℚ
deriving DecidableEq

/-- A YUV (YPbPr) color (`interface YUV`). -/
structure YUV where
  y : ℚ
  u : ℚ
  v : ℚ
deriving DecidableEq

/-- JS `Math.round`: rounds half up. -/
def jround (x : ℚ) : ℤ := ⌊x + 1/2⌋

/-- JS integer truncation (toward zero), used by the `%` operator. -/
def jsTrunc (x : ℚ) : ℤ := if x < 0 then -⌊-x⌋ else ⌊x⌋

/-- JS remainder operator `n % m` (sign follows the dividend). -/
def jsRem (n m : ℚ) : ℚ := n - m * jsTrunc (n / m)

/-- `Color.modulo(n, m)` from the source: `((n % m) + m) % m`. -/
def modulo (n m : ℚ) : ℚ := jsRem (jsRem n m + m) m

/-- Digit values assigned by `parseInt(·, 16)` to hexadecimal digit
characters (other characters make `parseInt` produce `NaN`; the embedding
only evaluates it on hex digits and uses 0 elsewhere). -/
def hexVal (c : Char) : ℕ :=
  match c with
  | '0' => 0 | '1' => 1 | '2' => 2 | '3' => 3 | '4' => 4
  | '5' => 5 | '6' => 6 | '7' => 7 | '8' => 8 | '9' => 9
  | 'a' => 10 | 'b' => 11 | 'c' => 12 | 'd' => 13 | 'e' => 14 | 'f' => 15
  | 'A' => 10 | 'B' => 11 | 'C' => 12 | 'D' => 13 | 'E' => 14 | 'F' => 15
  | _ => 0

/-- The hexadecimal digit characters (both cases), defining validity of a
hex digit for the specification statements. -/
def hexDigits : List Char :=
  ['0', '1', '2', '3', '4', '5', '6', '7'] ++
    ['8', '9', 'a', 'b', 'c', 'd', 'e', 'f'] ++
    ['A', 'B', 'C', 'D', 'E', 'F']

/-- Validity of a single hex digit character. -/
def isHexDigit (c : Char) : Bool := hexDigits.contains c

/-- ASCII lowercasing of a character (the "lowercase form" in the claims). -/
def toLowerChar (c : Char) : Char :=
  if 'A' ≤ c && c ≤ 'Z' then Char.ofNat (c.toNat + 32) else c

/-- Digit character emitted by `Number.prototype.toString(16)`. -/
def hexChar (n : ℕ) : Char :=
  if n < 10 then Char.ofNat (48 + n) else Char.ofNat (87 + n)

/-- Base-16 digit string of a natural number, as `toString(16)`. -/
def natToHex (n : ℕ) : List Char :=
  if n < 16 then [hexChar n] else natToHex (n / 16) ++ [hexChar (n % 16)]
termination_by n
decreasing_by exact Nat.div_lt_self (by omega) (by omega)

/-- JS `toString(16)` on integer values (negative values get a minus sign). -/
def intToHex16 (i : ℤ) : List Char :=
  if i < 0 then '-' :: natToHex (-i).toNat else natToHex i.toNat

/-- `String.prototype.padStart(2, '0')`, as used after `toString(16)`
(the source's `while (hexCombinedValue.length < 2)` loop does the same). -/
def padStart2 (l : List Char) : List Char := List.replicate (2 - l.length) '0' ++ l

/-- Value of `parseInt(s, 16)` on a string of valid hex digits. -/
def parseHexNat (l : List Char) : ℕ := l.foldl (fun acc c => 16 * acc + hexVal c) 0

/-- Characters matched by the regex `[G-Zg-z]` in `normalizeHex`. -/
def isBannedLetter (c : Char) : Bool :=
  ('G' ≤ c && c ≤ 'Z') || ('g' ≤ c && c ≤ 'z')

/-- `Color.normalizeHex`: normalize a hex color into a 6-digit hex value
without a leading hash symbol, or `none` (the source's `null`). -/
def normalizeHex (source : List Char) : Option (List Char) :=
  if source.length = 0 || source.any isBannedLetter then none
  else
    -- remove hex sign
    let normalized := if source.head? = some '#' then source.drop 1 else source
    -- if there is still a hash, it is invalid
    if normalized.head? = some '#' then none
    -- if it is now only one char we cannot work with that
    else if normalized.length < 2 then none
    else
      match normalized with
      | [a, b] => some [a, b, a, b, a, b]
      | [r, g, b] => some [r, r, g, g, b, b]
      | _ => if normalized.length = 6 then some normalized else none

/-- `Color.rgbToHsl`. -/
def rgbToHsl (rgb : RGB) : HSL :=
  let r := rgb.r / 255
  let g := rgb.g / 255
  let b := rgb.b / 255
  let mx := max r (max g b)
  let mn := min r (min g b)
  let l := (mx + mn) / 2
  if mx = mn then ⟨0, 0, l⟩          -- achromatic
  else
    let d := mx - mn
    let s := if l > 1/2 then d / (2 - mx - mn) else d / (mx + mn)
    let h := (if r = mx then (g - b) / d + (if g < b then 6 else 0)
              else if g = mx then (b - r) / d + 2
              else (r - g) / d + 4) / 6
    ⟨h, s, l⟩

/-- `Color.rgbToHex`: each channel through `toString(16).padStart(2, '0')`
(`Int.floor` is exact on the integer channel values the library produces). -/
def rgbToHex (rgb : RGB) : List Char :=
  padStart2 (intToHex16 ⌊rgb.r⌋) ++ padStart2 (intToHex16 ⌊rgb.g⌋) ++
    padStart2 (intToHex16 ⌊rgb.b⌋)

/-- The `hue2rgb` helper closure inside `Color.hslToRgb`. -/
def hue2rgb (p q t : ℚ) : ℚ :=
  let t1 := if t < 0 then t + 1 else t
  let t2 := if t1 > 1 then t1 - 1 else t1
  if t2 < 1/6 then p + (q - p) * 6 * t2
  else if t2 < 1/2 then q
  else if t2 < 2/3 then p + (q - p) * (2/3 - t2) * 6
  else p

/-- `Color.hslToRgb`. -/
def hslToRgb (hsl : HSL) : RGB :=
  if hsl.s = 0 then
    -- achromatic
    ⟨(jround (hsl.l * 255) : ℚ), (jround (hsl.l * 255) : ℚ), (jround (hsl.l * 255) : ℚ)⟩
  else
    let q := if hsl.l < 1/2 then hsl.l * (1 + hsl.s) else hsl.l + hsl.s - hsl.l * hsl.s
    let p := 2 * hsl.l - q
    ⟨(jround (hue2rgb p q (hsl.h + 1/3) * 255) : ℚ),
     (jround (hue2rgb p q hsl.h * 255) : ℚ),
     (jround (hue2rgb p q (hsl.h - 1/3) * 255) : ℚ)⟩

/-- `Color.hexToRgb` (with or without leading `#`). -/
def hexToRgb (hex : List Char) : RGB :=
  let h := if hex.head? = some '#' then hex.drop 1 else hex
  ⟨(parseHexNat (h.take 2) : ℚ), (parseHexNat ((h.drop 2).take 2) : ℚ),
    (parseHexNat ((h.drop 4).take 2) : ℚ)⟩

/-- `Color.hexToHsl`. -/
def hexToHsl (hex : List Char) : HSL :=
  if hex.length = 0 then ⟨0, 0, 0⟩ else rgbToHsl (hexToRgb hex)

/-- `Color.rgbToYuv`. -/
def rgbToYuv (rgb : RGB) : YUV :=
  let r := rgb.r / 255
  let g := rgb.g / 255
  let b := rgb.b / 255
  ⟨0.257 * r + 0.504 * g + 0.098 * b + 16,
   -0.148 * r - 0.291 * g + 0.439 * b + 128,
   0.439 * r - 0.368 * g - 0.071 * b + 128⟩

/-- The `Color` class state: one optional container per representation plus
the mutable `alpha` field. -/
structure Color where
  hexContainer : Option (List Char)
  rgbContainer : Option RGB
  hslContainer : Option HSL
  yuvContainer : Option YUV
  alpha : ℚ
deriving DecidableEq

/-- `Color.fromHex` (the source throws on invalid hex: modelled as `none`).
The constructor stores only the normalized hex string and alpha 1. -/
def fromHex (hex : List Char) : Option Color :=
  match normalizeHex hex with
  | none => none
  | some normalizedHex => some ⟨some normalizedHex, none, none, none, 1⟩

/-- `Color.fromRGB` (the constructor copies the three fields). -/
def fromRGB (rgb : RGB) (alpha : ℚ) : Color :=
  ⟨none, some ⟨rgb.r, rgb.g, rgb.b⟩, none, none, alpha⟩

/-- `Color.fromHSL` (the constructor copies the three fields). -/
def fromHSL (hsl : HSL) (alpha : ℚ) : Color :=
  ⟨none, none, some ⟨hsl.h, hsl.s, hsl.l⟩, none, alpha⟩

/-- `Color.fromYUV` (the constructor copies the three fields). -/
def fromYUV (yuv : YUV) (alpha : ℚ) : Color :=
  ⟨none, none, none, some ⟨yuv.y, yuv.u, yuv.v⟩, alpha⟩

/-- `calculateHex`: populate the hex cache. The hsl branch of the source
sets `rgbContainer` and recurses; the recursive call then takes the rgb
branch, which is unfolded here. A `throw` leaves the state unchanged. -/
def calculateHex (c : Color) : Color :=
  match c.hexContainer with
  | some _ => c
  | none =>
    match c.rgbContainer with
    | some rgb => { c with hexContainer := some (rgbToHex rgb) }
    | none =>
      match c.hslContainer with
      | some hsl =>
          { c with rgbContainer := some (hslToRgb hsl),
                   hexContainer := some (rgbToHex (hslToRgb hsl)) }
      | none => c

/-- `calculateRGB`: populate the rgb cache (throw leaves state unchanged). -/
def calculateRGB (c : Color) : Color :=
  match c.rgbContainer with
  | some _ => c
  | none =>
    match c.hexContainer with
    | some hex => { c with rgbContainer := some (hexToRgb hex) }
    | none =>
      match c.hslContainer with
      | some hsl => { c with rgbContainer := some (hslToRgb hsl) }
      | none => c

/-- `calculateHSL`: populate the hsl cache (throw leaves state unchanged). -/
def calculateHSL (c : Color) : Color :=
  match c.hslContainer with
  | some _ => c
  | none =>
    match c.hexContainer with
    | some hex => { c with hslContainer := some (hexToHsl hex) }
    | none =>
      match c.rgbContainer with
      | some rgb => { c with hslContainer := some (rgbToHsl rgb) }
      | none => c

/-- `calculateYUV`: ensure rgb first, then convert. -/
def calculateYUV (c : Color) : Color :=
  match c.yuvContainer with
  | some _ => c
  | none =>
    let c2 := calculateRGB c
    match c2.rgbContainer with
    | some rgb => { c2 with yuvContainer := some (rgbToYuv rgb) }
    | none => c2

/-- Value read by the `hex` getter (default unreachable for constructed
colors: it stands for the source's `throw`). -/
def hexValue (c : Color) : List Char := ((calculateHex c).hexContainer).getD []

/-- Value read by the `rgb` getter. -/
def rgbValue (c : Color) : RGB := ((calculateRGB c).rgbContainer).getD ⟨0, 0, 0⟩

/-- Value read by the `hsl` getter. -/
def hslValue (c : Color) : HSL := ((calculateHSL c).hslContainer).getD ⟨0, 0, 0⟩

/-- Value read by the `yuv` getter. -/
def yuvValue (c : Color) : YUV := ((calculateYUV c).yuvContainer).getD ⟨0, 0, 0⟩

/-- The `hsl` getter with its side effect on the instance. -/
def hslGet (c : Color) : HSL × Color :=
  let c2 := calculateHSL c
  (c2.hslContainer.getD ⟨0, 0, 0⟩, c2)

/-- The `hex` getter with its side effect on the instance. -/
def hexGet (c : Color) : List Char × Color :=
  let c2 := calculateHex c
  (c2.hexContainer.getD [], c2)

/-- The clamp `Math.max(Math.min(v, 1), 0)` used by darken/saturate. -/
def clamp01 (v : ℚ) : ℚ := max (min v 1) 0

/-- `Color.darken`: result together with the updated receiver (reading
`this.hsl` populates the hsl cache). -/
def darken (c : Color) (percentage : ℚ) : Color × Color :=
  let r := hslGet c
  (fromHSL ⟨r.1.h, r.1.s, clamp01 (r.1.l - percentage / 100)⟩ c.alpha, r.2)

/-- `Color.lighten` is `darken` of the negated percentage. -/
def lighten (c : Color) (percentage : ℚ) : Color × Color := darken c (-percentage)

/-- `Color.saturate`. -/
def saturate (c : Color) (percentage : ℚ) : Color × Color :=
  let r := hslGet c
  (fromHSL ⟨r.1.h, clamp01 (r.1.s + percentage / 100), r.1.l⟩ c.alpha, r.2)

/-- `Color.desaturate` is `saturate` of the negated percentage. -/
def desaturate (c : Color) (percentage : ℚ) : Color × Color := saturate c (-percentage)

/-- `Color.shiftHue`. -/
def shiftHue (c : Color) (amount : ℚ) : Color × Color :=
  let r := hslGet c
  (fromHSL ⟨modulo (r.1.h + amount) 1, r.1.s, r.1.l⟩ c.alpha, r.2)

/-- `Color.clone`: `Color.fromHSL(this.hsl, this.alpha)`. -/
def clone (c : Color) : Color × Color :=
  let r := hslGet c
  (fromHSL r.1 c.alpha, r.2)

/-- `Color.withAlpha`: clone, then set the alpha field. -/
def withAlpha (c : Color) (alpha : ℚ) : Color × Color :=
  let r := clone c
  ({ r.1 with alpha := alpha }, r.2)

/-- `Color.withHue`: clone, mutate the clone's live HSL object, null the
clone's rgb and hex caches. Every clone carries an hsl container. -/
def withHue (c : Color) (hue : ℚ) : Color × Color :=
  let r := clone c
  let hsl := r.1.hslContainer.getD ⟨0, 0, 0⟩
  ({ r.1 with hslContainer := some ⟨hue, hsl.s, hsl.l⟩,
              rgbContainer := none, hexContainer := none }, r.2)

/-- `Color.withSaturation`: same pattern as `withHue`. -/
def withSaturation (c : Color) (saturation : ℚ) : Color × Color :=
  let r := clone c
  let hsl := r.1.hslContainer.getD ⟨0, 0, 0⟩
  ({ r.1 with hslContainer := some ⟨hsl.h, saturation, hsl.l⟩,
              rgbContainer := none, hexContainer := none }, r.2)

/-- `Color.withLightness`: clone and mutate lightness (no cache reset). -/
def withLightness (c : Color) (lightness : ℚ) : Color × Color :=
  let r := clone c
  let hsl := r.1.hslContainer.getD ⟨0, 0, 0⟩
  ({ r.1 with hslContainer := some ⟨hsl.h, hsl.s, lightness⟩ }, r.2)

/-- One byte pair of `Color.mix`: parse the pair at offset `i` of both hex
strings, blend with `Math.floor`, re-encode zero-padded. -/
def mixPair (hex1 hex2 : List Char) (weight : ℚ) (i : ℕ) : List Char :=
  let value1 : ℚ := parseHexNat ((hex1.drop i).take 2)
  let value2 : ℚ := parseHexNat ((hex2.drop i).take 2)
  padStart2 (intToHex16 ⌊value2 + (value1 - value2) * (weight / 100)⌋)

/-- `Color.mix` (static): blend the three hex byte pairs, blend alpha, and
rebuild through `fromHex(...).withAlpha(...)`. -/
def mix (color1 color2 : Color) (weight : ℚ) : Option Color :=
  let hex1 := (hexGet color1).1
  let hex2 := (hexGet color2).1
  let finalHex := mixPair hex1 hex2 weight 0 ++ mixPair hex1 hex2 weight 2 ++
    mixPair hex1 hex2 weight 4
  let alpha := color2.alpha + (color1.alpha - color2.alpha) * (weight / 100)
  (fromHex finalHex).map (fun c => (withAlpha c alpha).1)

/-- `Color.mixWith`: `Color.mix(this, color, weight)`, whose read of
`this.hex` populates the receiver's hex (and possibly rgb) cache. -/
def mixWith (c : Color) (color : Color) (weight : ℚ) : Option Color × Color :=
  (mix c color weight, (hexGet c).2)

/-- The `perceivedBrightness` getter. -/
def perceivedBrightness (c : Color) : ℚ :=
  0.2126 * (rgbValue c).r + 0.7152 * (rgbValue c).g + 0.0722 * (rgbValue c).b

/-- `Color.contrast` (static). -/
def contrast (c0 c1 : Color) : ℚ :=
  (max (perceivedBrightness c0) (perceivedBrightness c1) + 0.05) /
    (min (perceivedBrightness c0) (perceivedBrightness c1) + 0.05)

/-- `Color.WHITE`. `fromHex` succeeds on this literal; the default is inert. -/
def WHITE : Color := (fromHex ['#', 'f', 'f', 'f', 'f', 'f', 'f']).getD (fromHSL ⟨0, 0, 0⟩ 1)

/-- `Color.BLACK`. `fromHex` succeeds on this literal; the default is inert. -/
def BLACK : Color := (fromHex ['#', '0', '0', '0', '0', '0', '0']).getD (fromHSL ⟨0, 0, 0⟩ 1)

/-- The flat object produced by `Color.toJSON`, as structured data. -/
inductive JSONOut where
  | rgbJ (r g b alpha : ℚ)
  | hslJ (h s l alpha : ℚ)
  | hexJ (hex : List Char)
deriving DecidableEq

/-- `Color.toJSON`: priority rgb, then hsl, then hex. -/
def toJSON (c : Color) : JSONOut :=
  match c.rgbContainer with
  | some rgb => .rgbJ rgb.r rgb.g rgb.b c.alpha
  | none =>
    match c.hslContainer with
    | some hsl => .hslJ hsl.h hsl.s hsl.l c.alpha
    | none => .hexJ (hexValue c)

/-- A rendered color string, kept as structured data (the numeric text
rendering of JS is abstracted; the components are exact). -/
inductive StrForm where
  | hslaForm (h s l alpha : ℚ)
  | rgbaForm (r g b alpha : ℚ)
  | hexForm (hex : List Char)
deriving DecidableEq

/-- The `cssHSLA` getter: hue in degrees and percentages, rounded to four
decimal places via `Math.round(x * 10000) / 10000`. -/
def cssHSLA (c : Color) : StrForm :=
  .hslaForm ((jround ((hslValue c).h * 360 * 10000) : ℚ) / 10000)
    ((jround ((hslValue c).s * 100 * 10000) : ℚ) / 10000)
    ((jround ((hslValue c).l * 100 * 10000) : ℚ) / 10000) c.alpha

/-- The `cssRGBA` getter. -/
def cssRGBA (c : Color) : StrForm :=
  .rgbaForm (rgbValue c).r (rgbValue c).g (rgbValue c).b c.alpha

/-- The `cssHex` getter. -/
def cssHex (c : Color) : StrForm := .hexForm (hexValue c)

/-- `Color.toString`: priority hsl, then rgb, then hex, else forced hsla. -/
def toStringForm (c : Color) : StrForm :=
  match c.hslContainer with
  | some _ => cssHSLA c
  | none =>
    match c.rgbContainer with
    | some _ => cssRGBA c
    | none =>
      match c.hexContainer with
      | some _ => cssHex c
      | none => cssHSLA c

/-- A JSON object as inspected by `Color.fromJSON`: optional `hex`, `h`,
`s`, `l`, `r`, `g`, `b` and `alpha` members (absence is `undefined`). -/
structure JsonObj where
  hexF : Option (List Char)
  hF : Option ℚ
  sF : Option ℚ
  lF : Option ℚ
  rF : Option ℚ
  gF : Option ℚ
  bF : Option ℚ
  alphaF : Option ℚ
deriving DecidableEq

/-- JS truthiness of a possibly-absent number: `undefined` and `0` are falsy. -/
def truthyNum (v : Option ℚ) : Bool :=
  match v with
  | none => false
  | some q => decide (q ≠ 0)

/-- JS truthiness of a possibly-absent string: `undefined` and `""` are falsy. -/
def truthyStr (v : Option (List Char)) : Bool :=
  match v with
  | none => false
  | some l => decide (l ≠ [])

/-- Outcome of `Color.fromJSON`: a color, `null`, or a thrown error
(`fromHex` throws on an invalid hex member). -/
inductive FromJSONResult where
  | ok (c : Color)
  | nullR
  | err
deriving DecidableEq

/-- `Color.fromJSON` on an object input (`none` models a falsy input such
as `null`, `undefined` or `""`). A missing `s`, `l`, `g`, `b` member is
read as `undefined`, modelled by 0 here (unused by the claims); a missing
`alpha` lets the factory's default 1 apply. -/
def fromJSON (json : Option JsonObj) : FromJSONResult :=
  match json with
  | none => .nullR
  | some parsed =>
    if truthyStr parsed.hexF then
      match fromHex (parsed.hexF.getD []) with
      | some c => .ok c
      | none => .err
    else if truthyNum parsed.hF then
      .ok (fromHSL ⟨parsed.hF.getD 0, parsed.sF.getD 0, parsed.lF.getD 0⟩ (parsed.alphaF.getD 1))
    else if truthyNum parsed.rF then
      .ok (fromRGB ⟨parsed.rF.getD 0, parsed.gF.getD 0, parsed.bF.getD 0⟩ (parsed.alphaF.getD 1))
    else .nullR

/-! ### Generic helper lemmas -/

/-- Removal of one leading `#`, as the claims' "after #-removal". -/
def stripHash (s : List Char) : List Char :=
  if s.head? = some '#' then s.drop 1 else s

theorem normalizeHex_unfold (s : List Char) :
    normalizeHex s =
      if s.length = 0 || s.any isBannedLetter then none
      else if (stripHash s).head? = some '#' then none
      else if (stripHash s).length < 2 then none
      else
        match stripHash s with
        | [a, b] => some [a, b, a, b, a, b]
        | [r, g, b] => some [r, r, g, g, b, b]
        | _ => if (stripHash s).length = 6 then some (stripHash s) else none :=
  rfl

theorem jround_intCast (n : ℤ) : jround ((n : ℚ)) = n := by
  have h1 : ((n : ℚ)) ≤ (n : ℚ) + 1/2 := by norm_num
  have h2 : (n : ℚ) + 1/2 < (n : ℚ) + 1 := by norm_num
  exact Int.floor_eq_iff.2 ⟨h1, by linarith⟩

theorem jround_natCast (n : ℕ) : jround ((n : ℚ)) = n := by
  have := jround_intCast (n : ℤ)
  simpa using this

theorem normalizeHex_none_of_banned (s : List Char) (c : Char) (hc : c ∈ s)
    (hb : isBannedLetter c = true) : normalizeHex s = none := by
  rw [normalizeHex_unfold]
  have hany : s.any isBannedLetter = true := List.any_eq_true.2 ⟨c, hc, hb⟩
  simp [hany]

theorem normalizeHex_none_of_short (s : List Char) (hlen : (stripHash s).length < 2) :
    normalizeHex s = none := by
  rw [normalizeHex_unfold]
  split_ifs with h1 h2
  · rfl
  · rfl
  · rfl

theorem normalizeHex_none_of_bad_length (s : List Char) (h2 : (stripHash s).length ≠ 2)
    (h3 : (stripHash s).length ≠ 3) (h6 : (stripHash s).length ≠ 6) :
    normalizeHex s = none := by
  rw [normalizeHex_unfold]
  split_ifs with hA hB hC
  · rfl
  · rfl
  · rfl
  · rcases hL : stripHash s with _ | ⟨a, _ | ⟨b, _ | ⟨c, _ | ⟨d, t⟩⟩⟩⟩
    · rfl
    · rfl
    · rw [hL] at h2; simp at h2
    · rw [hL] at h3; simp at h3
    · rfl

theorem normalizeHex_two (s : List Char) (a b : Char)
    (hclean : s.any isBannedLetter = false) (hL : stripHash s = [a, b]) (ha : a ≠ '#') :
    normalizeHex s = some [a, b, a, b, a, b] := by
  have hs0 : s.length ≠ 0 := by
    intro h
    rw [List.length_eq_zero] at h
    subst h
    simp [stripHash] at hL
  rw [normalizeHex_unfold]
  rw [if_neg (by simp [hs0, hclean])]
  rw [hL]
  rw [if_neg (by simpa using ha)]
  norm_num

theorem normalizeHex_three (s : List Char) (a b c : Char)
    (hclean : s.any isBannedLetter = false) (hL : stripHash s = [a, b, c]) (ha : a ≠ '#') :
    normalizeHex s = some [a, a, b, b, c, c] := by
  have hs0 : s.length ≠ 0 := by
    intro h
    rw [List.length_eq_zero] at h
    subst h
    simp [stripHash] at hL
  rw [normalizeHex_unfold]
  rw [if_neg (by simp [hs0, hclean])]
  rw [hL]
  rw [if_neg (by simpa using ha)]
  norm_num

theorem normalizeHex_six (s : List Char) (a b c d e f : Char)
    (hclean : s.any isBannedLetter = false) (hL : stripHash s = [a, b, c, d, e, f])
    (ha : a ≠ '#') :
    normalizeHex s = some [a, b, c, d, e, f] := by
  have hs0 : s.length ≠ 0 := by
    intro h
    rw [List.length_eq_zero] at h
    subst h
    simp [stripHash] at hL
  rw [normalizeHex_unfold]
  rw [if_neg (by simp [hs0, hclean])]
  rw [hL]
  rw [if_neg (by simpa using ha)]
  norm_num

/-- Claim C3: `normalizeHex` behaves as specified:
one optional leading `#` is stripped; any input with a letter G-Z or g-z is
rejected; fewer than 2 characters after `#`-removal is rejected; any
remaining length other than 2, 3 or 6 is rejected; a 2-character rest `ab`
yields `ababab`; a 3-character rest duplicates each digit; a 6-character
rest passes through; and the four concrete examples of the spec hold. -/
theorem normalizeHex_spec :
    (∀ s : List Char, (∃ c ∈ s, isBannedLetter c = true) → normalizeHex s = none) ∧
    (∀ s : List Char, (stripHash s).length < 2 → normalizeHex s = none) ∧
    (∀ s : List Char, (stripHash s).length ≠ 2 → (stripHash s).length ≠ 3 →
      (stripHash s).length ≠ 6 → normalizeHex s = none) ∧
    (∀ (s : List Char) (a b : Char), s.any isBannedLetter = false →
      stripHash s = [a, b] → a ≠ '#' → normalizeHex s = some [a, b, a, b, a, b]) ∧
    (∀ (s : List Char) (a b c : Char), s.any isBannedLetter = false →
      stripHash s = [a, b, c] → a ≠ '#' → normalizeHex s = some [a, a, b, b, c, c]) ∧
    (∀ (s : List Char) (a b c d e f : Char), s.any isBannedLetter = false →
      stripHash s = [a, b, c, d, e, f] → a ≠ '#' →
      normalizeHex s = some [a, b, c, d, e, f]) ∧
    normalizeHex ['1', '7', 'a'] = some ['1', '1', '7', '7', 'a', 'a'] ∧
    normalizeHex ['7', 'f'] = some ['7', 'f', '7', 'f', '7', 'f'] ∧
    normalizeHex ['#', '#', '1'] = none ∧
    normalizeHex [] = none := by
  refine ⟨?_, normalizeHex_none_of_short, normalizeHex_none_of_bad_length,
    normalizeHex_two, normalizeHex_three, normalizeHex_six, by decide, by decide,
    by decide, by decide⟩
  intro s hex
  obtain ⟨c, hc, hb⟩ := hex
  exact normalizeHex_none_of_banned s c hc hb

/-- Witness for `normalizeHex_spec`: its 2-character rule applied to the
concrete input `0f` (hypotheses discharged by `decide`). -/
theorem normalizeHex_spec_witness :
    normalizeHex ['0', 'f'] = some ['0', 'f', '0', 'f', '0', 'f'] :=
  normalizeHex_spec.2.2.2.1 ['0', 'f'] '0' 'f' (by decide) (by decide) (by decide)

/-! ### Claim C5: shiftHue wraps with a true mathematical modulo -/

theorem jsRem_one (n : ℚ) : jsRem n 1 = n - jsTrunc n := by
  simp [jsRem]

theorem jsTrunc_bounds (n : ℚ) : n - 1 < (jsTrunc n : ℚ) ∧ (jsTrunc n : ℚ) ≤ n ∨
    n ≤ (jsTrunc n : ℚ) ∧ (jsTrunc n : ℚ) < n + 1 := by
  unfold jsTrunc
  split_ifs with h
  · right
    constructor
    · push_cast
      have := Int.floor_le (-n)
      linarith
    · push_cast
      have := Int.lt_floor_add_one (-n)
      linarith
  · left
    constructor
    · have := Int.lt_floor_add_one n
      linarith
    · exact Int.floor_le n

theorem modulo_one_eq_fract (n : ℚ) : modulo n 1 = Int.fract n := by
  unfold modulo
  rw [jsRem_one, jsRem_one]
  set f := n - (jsTrunc n : ℚ) with hf
  have hfb : -1 < f ∧ f < 1 := by
    rcases jsTrunc_bounds n with ⟨h1, h2⟩ | ⟨h1, h2⟩
    · constructor <;> [skip; skip] <;> simp only [hf] <;> linarith
    · constructor <;> [skip; skip] <;> simp only [hf] <;> linarith
  have hg0 : (0 : ℚ) ≤ f + 1 := by linarith [hfb.1]
  have htr : jsTrunc (f + 1) = ⌊f + 1⌋ := by
    unfold jsTrunc
    rw [if_neg (by linarith [hfb.1])]
  rw [htr]
  have h1 : f + 1 - (⌊f + 1⌋ : ℚ) = Int.fract (f + 1) := by
    rw [Int.fract]
  rw [h1]
  have h2 : Int.fract (f + 1) = Int.fract f := by
    simp
  rw [h2, hf]
  have h3 : Int.fract (n - (jsTrunc n : ℚ)) = Int.fract n := Int.fract_sub_int n (jsTrunc n)
  rw [h3]

/-- Claim C5: `shiftHue(amount)` yields hue `(h + amount) mod 1` in the
mathematical sense (`Int.fract`), hence in `[0, 1)` with negative sums
wrapping positive, leaving saturation, lightness and alpha unchanged; in
particular hue 0.9 shifted by 0.3 gives 0.2 and hue 0.1 shifted by -0.3
gives 0.8. -/
theorem shiftHue_spec :
    (∀ (c : Color) (amount : ℚ),
      (hslValue (shiftHue c amount).1).h = Int.fract ((hslValue c).h + amount) ∧
      0 ≤ (hslValue (shiftHue c amount).1).h ∧ (hslValue (shiftHue c amount).1).h < 1 ∧
      (hslValue (shiftHue c amount).1).s = (hslValue c).s ∧
      (hslValue (shiftHue c amount).1).l = (hslValue c).l ∧
      (shiftHue c amount).1.alpha = c.alpha) ∧
    (hslValue (shiftHue (fromHSL ⟨9/10, 1/2, 1/2⟩ 1) (3/10)).1).h = 2/10 ∧
    (hslValue (shiftHue (fromHSL ⟨1/10, 1/2, 1/2⟩ 1) (-(3/10))).1).h = 8/10 := by
  have main : ∀ (c : Color) (amount : ℚ),
      (hslValue (shiftHue c amount).1).h = Int.fract ((hslValue c).h + amount) ∧
      0 ≤ (hslValue (shiftHue c amount).1).h ∧ (hslValue (shiftHue c amount).1).h < 1 ∧
      (hslValue (shiftHue c amount).1).s = (hslValue c).s ∧
      (hslValue (shiftHue c amount).1).l = (hslValue c).l ∧
      (shiftHue c amount).1.alpha = c.alpha := by
    intro c amount
    have hres : (hslValue (shiftHue c amount).1) =
        ⟨modulo ((hslValue c).h + amount) 1, (hslValue c).s, (hslValue c).l⟩ := rfl
    rw [hres, modulo_one_eq_fract]
    refine ⟨rfl, Int.fract_nonneg _, Int.fract_lt_one _, rfl, rfl, rfl⟩
  refine ⟨main, ?_, ?_⟩
  · rw [(main (fromHSL ⟨9/10, 1/2, 1/2⟩ 1) (3/10)).1]
    have hv : (hslValue (fromHSL ⟨9/10, 1/2, 1/2⟩ 1)).h = 9/10 := rfl
    rw [hv, show (9/10 + 3/10 : ℚ) = (1 : ℤ) + 1/5 by push_cast; norm_num,
      Int.fract_int_add, Int.fract_eq_self.2 ⟨by norm_num, by norm_num⟩]
    norm_num
  · rw [(main (fromHSL ⟨1/10, 1/2, 1/2⟩ 1) (-(3/10))).1]
    have hv : (hslValue (fromHSL ⟨1/10, 1/2, 1/2⟩ 1)).h = 1/10 := rfl
    rw [hv, show (1/10 + -(3/10) : ℚ) = (-1 : ℤ) + 4/5 by push_cast; norm_num,
      Int.fract_int_add, Int.fract_eq_self.2 ⟨by norm_num, by norm_num⟩]
    norm_num

/-! ### Claim C6: contrast ratio -/

/-- The data model's conceptual channel range: rgb components in [0, 255]. -/
def rgbInRange (c : Color) : Prop :=
  0 ≤ (rgbValue c).r ∧ (rgbValue c).r ≤ 255 ∧
  0 ≤ (rgbValue c).g ∧ (rgbValue c).g ≤ 255 ∧
  0 ≤ (rgbValue c).b ∧ (rgbValue c).b ≤ 255

instance (c : Color) : Decidable (rgbInRange c) := by
  unfold rgbInRange
  infer_instance

theorem rgbValue_BLACK : rgbValue BLACK = ⟨0, 0, 0⟩ := by
  have h : rgbValue BLACK = ⟨((0 : ℕ) : ℚ), ((0 : ℕ) : ℚ), ((0 : ℕ) : ℚ)⟩ := rfl
  rw [h]
  norm_num

theorem rgbValue_WHITE : rgbValue WHITE = ⟨255, 255, 255⟩ := by
  have h : rgbValue WHITE = ⟨((255 : ℕ) : ℚ), ((255 : ℕ) : ℚ), ((255 : ℕ) : ℚ)⟩ := rfl
  rw [h]
  norm_num

theorem perceivedBrightness_BLACK : perceivedBrightness BLACK = 0 := by
  rw [perceivedBrightness, rgbValue_BLACK]
  norm_num

theorem perceivedBrightness_WHITE : perceivedBrightness WHITE = 255 := by
  rw [perceivedBrightness, rgbValue_WHITE]
  norm_num

theorem rgbInRange_BLACK : rgbInRange BLACK := by
  unfold rgbInRange
  rw [rgbValue_BLACK]
  norm_num

theorem rgbInRange_WHITE : rgbInRange WHITE := by
  unfold rgbInRange
  rw [rgbValue_WHITE]
  norm_num

theorem perceivedBrightness_nonneg (c : Color) (h : rgbInRange c) :
    0 ≤ perceivedBrightness c := by
  obtain ⟨h1, -, h2, -, h3, -⟩ := h
  unfold perceivedBrightness
  positivity

/-- Claim C6: `contrast` equals `(max(lum0, lum1) + 0.05) / (min(lum0, lum1)
+ 0.05)` over the perceived brightnesses `0.2126 r + 0.7152 g + 0.0722 b`,
is symmetric, equals exactly 1 on equal arguments, and
`contrast(BLACK, WHITE) ≥ 10`. -/
theorem contrast_spec :
    (∀ c0 c1 : Color, rgbInRange c0 → rgbInRange c1 →
      contrast c0 c1 =
        (max (0.2126 * (rgbValue c0).r + 0.7152 * (rgbValue c0).g + 0.0722 * (rgbValue c0).b)
             (0.2126 * (rgbValue c1).r + 0.7152 * (rgbValue c1).g + 0.0722 * (rgbValue c1).b)
          + 0.05) /
        (min (0.2126 * (rgbValue c0).r + 0.7152 * (rgbValue c0).g + 0.0722 * (rgbValue c0).b)
             (0.2126 * (rgbValue c1).r + 0.7152 * (rgbValue c1).g + 0.0722 * (rgbValue c1).b)
          + 0.05) ∧
      contrast c0 c1 = contrast c1 c0 ∧
      contrast c0 c0 = 1) ∧
    contrast BLACK WHITE ≥ 10 := by
  constructor
  · intro c0 c1 h0 h1
    refine ⟨rfl, ?_, ?_⟩
    · unfold contrast
      rw [max_comm, min_comm]
    · unfold contrast
      rw [max_self, min_self]
      have hpos : 0 < perceivedBrightness c0 + 0.05 := by
        have := perceivedBrightness_nonneg c0 h0
        linarith
      rw [div_self (ne_of_gt hpos)]
  · unfold contrast
    rw [perceivedBrightness_BLACK, perceivedBrightness_WHITE]
    rw [max_eq_right (by norm_num : (0 : ℚ) ≤ 255), min_eq_left (by norm_num : (0 : ℚ) ≤ 255)]
    norm_num

/-- Witness for `contrast_spec`: the general part applied to the concrete
colors `BLACK` and `WHITE`. -/
theorem contrast_spec_witness :
    contrast BLACK WHITE = contrast WHITE BLACK ∧ contrast BLACK BLACK = 1 :=
  ⟨(contrast_spec.1 BLACK WHITE rgbInRange_BLACK rgbInRange_WHITE).2.1,
   (contrast_spec.1 BLACK BLACK rgbInRange_BLACK rgbInRange_BLACK).2.2⟩

/-! ### Claim C7: fromJSON dispatch -/

/-- Counterexample to claim C7: the object `{h: 0, s: 1, l: 0.5, alpha: 1}`
has an `h` key, so the claim predicts `fromHSL` of it, but `fromJSON`
returns null because `0` is falsy in the source's `parsed.h` test. -/
theorem fromJSON_h_zero_counterexample :
    fromJSON (some ⟨none, some 0, some 1, some (1/2), none, none, none, some 1⟩) =
      FromJSONResult.nullR ∧
    FromJSONResult.nullR ≠ FromJSONResult.ok (fromHSL ⟨0, 1, 1/2⟩ 1) := by
  constructor
  · simp [fromJSON, truthyStr, truthyNum]
  · intro h
    exact FromJSONResult.noConfusion h

/-- Amended claim C7: `fromJSON` dispatches on JS truthiness of the member
values, not on key presence: a truthy (non-empty) `hex` goes to `fromHex`
(whose failure propagates as a thrown error), else a truthy (nonzero) `h`
goes to `fromHSL` with the `alpha` member (default 1), else a truthy
(nonzero) `r` goes to `fromRGB` with the `alpha` member, else the result is
null; falsy input is null. -/
theorem fromJSON_spec :
    fromJSON none = FromJSONResult.nullR ∧
    (∀ j : JsonObj, truthyStr j.hexF = true →
      fromJSON (some j) = match fromHex (j.hexF.getD []) with
        | some c => FromJSONResult.ok c
        | none => FromJSONResult.err) ∧
    (∀ j : JsonObj, truthyStr j.hexF = false → truthyNum j.hF = true →
      fromJSON (some j) =
        FromJSONResult.ok (fromHSL ⟨j.hF.getD 0, j.sF.getD 0, j.lF.getD 0⟩ (j.alphaF.getD 1))) ∧
    (∀ j : JsonObj, truthyStr j.hexF = false → truthyNum j.hF = false →
      truthyNum j.rF = true →
      fromJSON (some j) =
        FromJSONResult.ok (fromRGB ⟨j.rF.getD 0, j.gF.getD 0, j.bF.getD 0⟩ (j.alphaF.getD 1))) ∧
    (∀ j : JsonObj, truthyStr j.hexF = false → truthyNum j.hF = false →
      truthyNum j.rF = false → fromJSON (some j) = FromJSONResult.nullR) := by
  refine ⟨rfl, ?_, ?_, ?_, ?_⟩
  · intro j hhex
    simp [fromJSON, hhex]
  · intro j hhex hh
    simp [fromJSON, hhex, hh]
  · intro j hhex hh hr
    simp [fromJSON, hhex, hh, hr]
  · intro j hhex hh hr
    simp [fromJSON, hhex, hh, hr]

/-- Witness for `fromJSON_spec`: the HSL branch applied to a concrete
object with a truthy `h` member. -/
theorem fromJSON_spec_witness :
    fromJSON (some ⟨none, some (1/4), some 1, some (1/2), none, none, none, none⟩) =
      FromJSONResult.ok (fromHSL ⟨1/4, 1, 1/2⟩ 1) :=
  fromJSON_spec.2.2.1 ⟨none, some (1/4), some 1, some (1/2), none, none, none, none⟩
    rfl (by norm_num [truthyNum])

/-! ### Claim C8: withHue / withSaturation / withLightness -/

/-- Claim C8: each of `withHue`, `withSaturation` and `withLightness`
returns a color whose HSL is the receiver's HSL with exactly that one
component replaced, and whose rgb and hex accessors return the conversion
of the updated HSL, never a stale cached value. -/
theorem withComponent_spec : ∀ (c : Color) (v : ℚ), 0 ≤ v → v ≤ 1 →
    (hslValue (withHue c v).1 = ⟨v, (hslValue c).s, (hslValue c).l⟩ ∧
     rgbValue (withHue c v).1 = hslToRgb ⟨v, (hslValue c).s, (hslValue c).l⟩ ∧
     hexValue (withHue c v).1 = rgbToHex (hslToRgb ⟨v, (hslValue c).s, (hslValue c).l⟩)) ∧
    (hslValue (withSaturation c v).1 = ⟨(hslValue c).h, v, (hslValue c).l⟩ ∧
     rgbValue (withSaturation c v).1 = hslToRgb ⟨(hslValue c).h, v, (hslValue c).l⟩ ∧
     hexValue (withSaturation c v).1 =
       rgbToHex (hslToRgb ⟨(hslValue c).h, v, (hslValue c).l⟩)) ∧
    (hslValue (withLightness c v).1 = ⟨(hslValue c).h, (hslValue c).s, v⟩ ∧
     rgbValue (withLightness c v).1 = hslToRgb ⟨(hslValue c).h, (hslValue c).s, v⟩ ∧
     hexValue (withLightness c v).1 =
       rgbToHex (hslToRgb ⟨(hslValue c).h, (hslValue c).s, v⟩)) := by
  intro c v hv0 hv1
  exact ⟨⟨rfl, rfl, rfl⟩, ⟨rfl, rfl, rfl⟩, ⟨rfl, rfl, rfl⟩⟩

/-- Witness for `withComponent_spec` at a concrete color and value. -/
theorem withComponent_spec_witness :
    hslValue (withHue (fromRGB ⟨10, 20, 30⟩ 1) (1/2)).1 =
      ⟨1/2, (hslValue (fromRGB ⟨10, 20, 30⟩ 1)).s, (hslValue (fromRGB ⟨10, 20, 30⟩ 1)).l⟩ :=
  ((withComponent_spec (fromRGB ⟨10, 20, 30⟩ 1) (1/2) (by norm_num) (by norm_num)).1).1

/-! ### Hex byte encoding and parsing lemmas -/

theorem hexVal_hexChar (n : ℕ) (h : n < 16) : hexVal (hexChar n) = n := by
  interval_cases n <;> rfl

theorem hexChar_ne_hash (n : ℕ) (h : n < 16) : hexChar n ≠ '#' := by
  interval_cases n <;> decide

theorem isHexDigit_hexChar (n : ℕ) (h : n < 16) : isHexDigit (hexChar n) = true := by
  interval_cases n <;> decide

theorem isBannedLetter_hexChar (n : ℕ) (h : n < 16) : isBannedLetter (hexChar n) = false := by
  interval_cases n <;> decide

theorem natToHex_lt (n : ℕ) (h : n < 16) : natToHex n = [hexChar n] := by
  rw [natToHex]
  simp [h]

theorem natToHex_byte (n : ℕ) (h1 : 16 ≤ n) (h2 : n < 256) :
    natToHex n = [hexChar (n / 16), hexChar (n % 16)] := by
  rw [natToHex]
  rw [if_neg (by omega)]
  rw [natToHex_lt (n / 16) (by omega)]
  rfl

theorem byteChars (n : ℕ) (h : n < 256) :
    padStart2 (intToHex16 (n : ℤ)) = [hexChar (n / 16), hexChar (n % 16)] := by
  unfold intToHex16
  rw [if_neg (by omega)]
  have ht : ((n : ℤ)).toNat = n := Int.toNat_natCast n
  rw [ht]
  rcases lt_or_ge n 16 with hlt | hge
  · rw [natToHex_lt n hlt]
    rw [show n / 16 = 0 by omega, show n % 16 = n by omega]
    show ['0', hexChar n] = [hexChar 0, hexChar n]
    rfl
  · rw [natToHex_byte n hge h]
    rfl

theorem parseHexNat_pair (a b : Char) : parseHexNat [a, b] = 16 * hexVal a + hexVal b := by
  show 16 * (16 * 0 + hexVal a) + hexVal b = _
  ring

theorem parse_byte (n : ℕ) (h : n < 256) :
    parseHexNat (padStart2 (intToHex16 (n : ℤ))) = n := by
  rw [byteChars n h, parseHexNat_pair, hexVal_hexChar (n / 16) (by omega),
    hexVal_hexChar (n % 16) (by omega)]
  omega

theorem rgbToHex_bytes (r g b : ℕ) (hr : r ≤ 255) (hg : g ≤ 255) (hb : b ≤ 255) :
    rgbToHex ⟨(r : ℚ), (g : ℚ), (b : ℚ)⟩ =
      [hexChar (r / 16), hexChar (r % 16), hexChar (g / 16), hexChar (g % 16),
       hexChar (b / 16), hexChar (b % 16)] := by
  unfold rgbToHex
  simp only [Int.floor_natCast]
  rw [byteChars r (by omega), byteChars g (by omega), byteChars b (by omega)]
  rfl

theorem hexToRgb_six (c0 c1 c2 c3 c4 c5 : Char) (h : c0 ≠ '#') :
    hexToRgb [c0, c1, c2, c3, c4, c5] =
      ⟨((16 * hexVal c0 + hexVal c1 : ℕ) : ℚ), ((16 * hexVal c2 + hexVal c3 : ℕ) : ℚ),
       ((16 * hexVal c4 + hexVal c5 : ℕ) : ℚ)⟩ := by
  unfold hexToRgb
  rw [if_neg (by simpa using h)]
  show RGB.mk (parseHexNat [c0, c1] : ℕ) (parseHexNat [c2, c3] : ℕ) (parseHexNat [c4, c5] : ℕ) = _
  rw [parseHexNat_pair, parseHexNat_pair, parseHexNat_pair]

theorem hexToRgb_rgbToHex (r g b : ℕ) (hr : r ≤ 255) (hg : g ≤ 255) (hb : b ≤ 255) :
    hexToRgb (rgbToHex ⟨(r : ℚ), (g : ℚ), (b : ℚ)⟩) = ⟨(r : ℚ), (g : ℚ), (b : ℚ)⟩ := by
  rw [rgbToHex_bytes r g b hr hg hb]
  rw [hexToRgb_six _ _ _ _ _ _ (hexChar_ne_hash (r / 16) (by omega))]
  have e1 : 16 * hexVal (hexChar (r / 16)) + hexVal (hexChar (r % 16)) = r := by
    rw [hexVal_hexChar (r / 16) (by omega), hexVal_hexChar (r % 16) (by omega)]
    omega
  have e2 : 16 * hexVal (hexChar (g / 16)) + hexVal (hexChar (g % 16)) = g := by
    rw [hexVal_hexChar (g / 16) (by omega), hexVal_hexChar (g % 16) (by omega)]
    omega
  have e3 : 16 * hexVal (hexChar (b / 16)) + hexVal (hexChar (b % 16)) = b := by
    rw [hexVal_hexChar (b / 16) (by omega), hexVal_hexChar (b % 16) (by omega)]
    omega
  rw [e1, e2, e3]

/-! ### Claims C9 and C10: frame effects and HSL-backed results -/

/-- The observable state of a color: the four representation values it
reports plus its alpha. -/
def observables (c : Color) : List Char × RGB × HSL × YUV × ℚ :=
  (hexValue c, rgbValue c, hslValue c, yuvValue c, c.alpha)

theorem observables_calculateHSL (c : Color) :
    observables (calculateHSL c) = observables c := by
  rcases c with ⟨_ | hex, _ | rgb, _ | hsl, _ | yuv, a⟩ <;> rfl

/-- An RGB backing value inside the data model's conceptual range:
integer components between 0 and 255. -/
def rgbByteRange (rgb : RGB) : Prop :=
  ∃ r g b : ℕ, r ≤ 255 ∧ g ≤ 255 ∧ b ≤ 255 ∧ rgb = ⟨(r : ℚ), (g : ℚ), (b : ℚ)⟩

theorem hexToHsl_rgbToHex (r g b : ℕ) (hr : r ≤ 255) (hg : g ≤ 255) (hb : b ≤ 255) :
    hexToHsl (rgbToHex ⟨(r : ℚ), (g : ℚ), (b : ℚ)⟩) = rgbToHsl ⟨(r : ℚ), (g : ℚ), (b : ℚ)⟩ := by
  unfold hexToHsl
  rw [rgbToHex_bytes r g b hr hg hb]
  rw [if_neg (by simp)]
  rw [← rgbToHex_bytes r g b hr hg hb, hexToRgb_rgbToHex r g b hr hg hb]

theorem observables_calculateHex (c : Color)
    (h : ∀ rgb, c.rgbContainer = some rgb → rgbByteRange rgb) :
    observables (calculateHex c) = observables c := by
  rcases c with ⟨_ | hex, _ | rgb, _ | hsl, _ | yuv, a⟩ <;> try rfl
  all_goals {
    obtain ⟨r, g, b, hr, hg, hb, hrgb⟩ := h rgb rfl
    subst hrgb
    simp only [observables, Prod.mk.injEq]
    exact ⟨rfl, rfl, hexToHsl_rgbToHex r g b hr hg hb, rfl, rfl⟩
  }

/-- Counterexample to claim C9 as stated for every color: for the
rgb-backed color `{r: 300, g: 0, b: 0}` (out of the 0-255 byte range),
`mixWith` caches the hex string `12c0000` on the receiver, and the later
`hsl` read parses that string's first three byte pairs, observably changing
the receiver's reported HSL. -/
theorem mixWith_stale_hsl_counterexample :
    observables (mixWith (fromRGB ⟨300, 0, 0⟩ 1) BLACK 50).2 ≠
      observables (fromRGB ⟨300, 0, 0⟩ 1) := by
  intro h
  have hs := congrArg (fun t => t.2.2.1.s) h
  simp only [observables] at hs
  have hhex : rgbToHex ⟨(300 : ℚ), 0, 0⟩ = ['1', '2', 'c', '0', '0', '0', '0'] := by
    have f1 : ⌊(RGB.mk 300 0 0).r⌋ = (300 : ℤ) := by
      show ⌊(300 : ℚ)⌋ = (300 : ℤ)
      rw [show (300 : ℚ) = ((300 : ℤ) : ℚ) by norm_num, Int.floor_intCast]
    have f2 : ⌊(RGB.mk 300 0 0).g⌋ = (0 : ℤ) := by
      show ⌊(0 : ℚ)⌋ = (0 : ℤ)
      rw [show (0 : ℚ) = ((0 : ℤ) : ℚ) by norm_num, Int.floor_intCast]
    unfold rgbToHex
    rw [f1, f2]
    have h300 : intToHex16 300 = ['1', '2', 'c'] := by
      unfold intToHex16
      rw [if_neg (by omega)]
      rw [show (300 : ℤ).toNat = 300 from rfl]
      rw [natToHex]
      rw [if_neg (by omega)]
      rw [natToHex]
      rw [if_neg (by omega)]
      rw [natToHex_lt (300 / 16 / 16) (by omega)]
      rfl
    have h0 : intToHex16 0 = ['0'] := by
      unfold intToHex16
      rw [if_neg (by omega)]
      rw [show (0 : ℤ).toNat = 0 from rfl]
      rw [natToHex_lt 0 (by omega)]
      rfl
    rw [h300, h0]
    rfl
  have hafter : hslValue (mixWith (fromRGB ⟨300, 0, 0⟩ 1) BLACK 50).2 =
      hexToHsl (rgbToHex ⟨(300 : ℚ), 0, 0⟩) := rfl
  have hbefore : hslValue (fromRGB ⟨300, 0, 0⟩ 1) = rgbToHsl ⟨(300 : ℚ), 0, 0⟩ := rfl
  rw [hafter, hbefore, hhex] at hs
  have hparsed : hexToRgb ['1', '2', 'c', '0', '0', '0', '0'] =
      ⟨(18 : ℚ), (192 : ℚ), (0 : ℚ)⟩ := by
    unfold hexToRgb
    rw [if_neg (by decide)]
    show RGB.mk (parseHexNat ['1', '2'] : ℕ) (parseHexNat ['c', '0'] : ℕ)
      (parseHexNat ['0', '0'] : ℕ) = _
    norm_num [parseHexNat_pair, hexVal]
  have hsplit : hexToHsl ['1', '2', 'c', '0', '0', '0', '0'] =
      rgbToHsl ⟨(18 : ℚ), (192 : ℚ), (0 : ℚ)⟩ := by
    unfold hexToHsl
    rw [if_neg (by decide)]
    rw [hparsed]
  rw [hsplit] at hs
  -- after the mix the saturation is 1; before, it is 10/7
  have hsA : (rgbToHsl ⟨(18 : ℚ), (192 : ℚ), (0 : ℚ)⟩).s = 1 := by
    norm_num [rgbToHsl, max_def, min_def]
  have hsB : (rgbToHsl ⟨(300 : ℚ), 0, 0⟩).s = 10/7 := by
    norm_num [rgbToHsl, max_def, min_def]
  rw [hsA, hsB] at hs
  norm_num at hs

/-- Amended claim C9: the nine HSL-reading transformation operations leave
the receiver's observable state (hex, rgb, hsl, yuv, alpha) unchanged for
every color; `mixWith` does so provided the receiver's rgb backing, when
present, holds integer components in the data model's 0-255 range. -/
theorem operations_preserve_receiver :
    (∀ (c : Color) (amount : ℚ),
      observables (darken c amount).2 = observables c ∧
      observables (lighten c amount).2 = observables c ∧
      observables (saturate c amount).2 = observables c ∧
      observables (desaturate c amount).2 = observables c ∧
      observables (shiftHue c amount).2 = observables c ∧
      observables (withAlpha c amount).2 = observables c ∧
      observables (withHue c amount).2 = observables c ∧
      observables (withSaturation c amount).2 = observables c ∧
      observables (withLightness c amount).2 = observables c) ∧
    (∀ (c other : Color) (amount : ℚ),
      (∀ rgb, c.rgbContainer = some rgb → rgbByteRange rgb) →
      observables (mixWith c other amount).2 = observables c) := by
  constructor
  · intro c amount
    exact ⟨observables_calculateHSL c, observables_calculateHSL c,
      observables_calculateHSL c, observables_calculateHSL c,
      observables_calculateHSL c, observables_calculateHSL c,
      observables_calculateHSL c, observables_calculateHSL c,
      observables_calculateHSL c⟩
  · intro c other amount h
    exact observables_calculateHex c h

/-- Witness for `operations_preserve_receiver`: its `mixWith` part applied
to a byte-range rgb color. -/
theorem operations_preserve_receiver_witness :
    observables (mixWith (fromRGB ⟨10, 20, 30⟩ 1) BLACK 50).2 =
      observables (fromRGB ⟨10, 20, 30⟩ 1) := by
  refine operations_preserve_receiver.2 (fromRGB ⟨10, 20, 30⟩ 1) BLACK 50 ?_
  intro rgb hrgb
  have : rgb = ⟨10, 20, 30⟩ := by
    have h := Option.some.inj hrgb
    exact h.symm
  subst this
  exact ⟨10, 20, 30, by omega, by omega, by omega, by norm_num⟩

theorem hsl_backed_shape (hsl : HSL) (al : ℚ) :
    (Color.mk none none (some hsl) none al).hexContainer = none ∧
    (Color.mk none none (some hsl) none al).rgbContainer = none ∧
    (Color.mk none none (some hsl) none al).yuvContainer = none ∧
    (∃ h2, (Color.mk none none (some hsl) none al).hslContainer = some h2) ∧
    (∃ h2 s2 l2 a2, toJSON (Color.mk none none (some hsl) none al) = JSONOut.hslJ h2 s2 l2 a2) ∧
    (∃ h2 s2 l2 a2,
      toStringForm (Color.mk none none (some hsl) none al) = StrForm.hslaForm h2 s2 l2 a2) :=
  ⟨rfl, rfl, rfl, ⟨hsl, rfl⟩, ⟨hsl.h, hsl.s, hsl.l, al, rfl⟩,
    ⟨((jround (hsl.h * 360 * 10000) : ℚ) / 10000), ((jround (hsl.s * 100 * 10000) : ℚ) / 10000),
      ((jround (hsl.l * 100 * 10000) : ℚ) / 10000), al, rfl⟩⟩

/-- Claim C10: every color produced by `clone` or a transformation
operation is backed solely by an HSL container at creation, so `toJSON`
on it returns the h/s/l/alpha shape and `toString` the hsla form. -/
theorem derived_colors_hsl_backed : ∀ (c other : Color) (amount : ℚ) (res : Color),
    (res = (clone c).1 ∨ res = (darken c amount).1 ∨ res = (lighten c amount).1 ∨
     res = (saturate c amount).1 ∨ res = (desaturate c amount).1 ∨
     res = (shiftHue c amount).1 ∨ res = (withAlpha c amount).1 ∨
     res = (withHue c amount).1 ∨ res = (withSaturation c amount).1 ∨
     res = (withLightness c amount).1 ∨ (mixWith c other amount).1 = some res) →
    res.hexContainer = none ∧ res.rgbContainer = none ∧ res.yuvContainer = none ∧
    (∃ h2, res.hslContainer = some h2) ∧
    (∃ h2 s2 l2 a2, toJSON res = JSONOut.hslJ h2 s2 l2 a2) ∧
    (∃ h2 s2 l2 a2, toStringForm res = StrForm.hslaForm h2 s2 l2 a2) := by
  intro c other amount res hres
  rcases hres with rfl | rfl | rfl | rfl | rfl | rfl | rfl | rfl | rfl | rfl | hmix
  · exact hsl_backed_shape _ _
  · exact hsl_backed_shape _ _
  · exact hsl_backed_shape _ _
  · exact hsl_backed_shape _ _
  · exact hsl_backed_shape _ _
  · exact hsl_backed_shape _ _
  · exact hsl_backed_shape _ _
  · exact hsl_backed_shape _ _
  · exact hsl_backed_shape _ _
  · exact hsl_backed_shape _ _
  · rcases h2 : fromHex (mixPair (hexGet c).1 (hexGet other).1 amount 0 ++
        mixPair (hexGet c).1 (hexGet other).1 amount 2 ++
        mixPair (hexGet c).1 (hexGet other).1 amount 4) with _ | cc
    · have : (mixWith c other amount).1 = none := by
        show mix c other amount = none
        simp only [mix]
        rw [h2]
        rfl
      rw [this] at hmix
      exact Option.noConfusion hmix
    · have hsome : (mixWith c other amount).1 =
          some (withAlpha cc (other.alpha + (c.alpha - other.alpha) * (amount / 100))).1 := by
        show mix c other amount = _
        simp only [mix]
        rw [h2]
        rfl
      rw [hsome] at hmix
      have hr := Option.some.inj hmix
      rw [← hr]
      exact hsl_backed_shape _ _

/-- Witness for `derived_colors_hsl_backed`: the clone of `BLACK`. -/
theorem derived_colors_hsl_backed_witness :
    (clone BLACK).1.hexContainer = none ∧ (clone BLACK).1.rgbContainer = none ∧
    (clone BLACK).1.yuvContainer = none ∧
    (∃ h2, (clone BLACK).1.hslContainer = some h2) ∧
    (∃ h2 s2 l2 a2, toJSON (clone BLACK).1 = JSONOut.hslJ h2 s2 l2 a2) ∧
    (∃ h2 s2 l2 a2, toStringForm (clone BLACK).1 = StrForm.hslaForm h2 s2 l2 a2) :=
  derived_colors_hsl_backed BLACK BLACK 0 (clone BLACK).1 (Or.inl rfl)

/-! ### Claim C2: hex round-trip -/

theorem hexDigit_facts (c : Char) (h : isHexDigit c = true) :
    hexVal c < 16 ∧ hexChar (hexVal c) = toLowerChar c ∧ c ≠ '#' := by
  have hm : c ∈ hexDigits := by
    have h2 : hexDigits.contains c = true := h
    simpa using h2
  fin_cases hm <;> exact ⟨by decide, by decide, by decide⟩

/-- Claim C2: for every valid 6-hex-digit string, `hexToRgb` then
`rgbToHex` returns the string in lowercase. -/
theorem hex_roundtrip : ∀ c0 c1 c2 c3 c4 c5 : Char,
    isHexDigit c0 = true → isHexDigit c1 = true → isHexDigit c2 = true →
    isHexDigit c3 = true → isHexDigit c4 = true → isHexDigit c5 = true →
    rgbToHex (hexToRgb [c0, c1, c2, c3, c4, c5]) =
      [toLowerChar c0, toLowerChar c1, toLowerChar c2,
       toLowerChar c3, toLowerChar c4, toLowerChar c5] := by
  intro c0 c1 c2 c3 c4 c5 h0 h1 h2 h3 h4 h5
  obtain ⟨hv0, hc0, hh0⟩ := hexDigit_facts c0 h0
  obtain ⟨hv1, hc1, -⟩ := hexDigit_facts c1 h1
  obtain ⟨hv2, hc2, -⟩ := hexDigit_facts c2 h2
  obtain ⟨hv3, hc3, -⟩ := hexDigit_facts c3 h3
  obtain ⟨hv4, hc4, -⟩ := hexDigit_facts c4 h4
  obtain ⟨hv5, hc5, -⟩ := hexDigit_facts c5 h5
  rw [hexToRgb_six c0 c1 c2 c3 c4 c5 hh0]
  rw [rgbToHex_bytes _ _ _ (by omega) (by omega) (by omega)]
  have d1 : (16 * hexVal c0 + hexVal c1) / 16 = hexVal c0 := by omega
  have d2 : (16 * hexVal c0 + hexVal c1) % 16 = hexVal c1 := by omega
  have d3 : (16 * hexVal c2 + hexVal c3) / 16 = hexVal c2 := by omega
  have d4 : (16 * hexVal c2 + hexVal c3) % 16 = hexVal c3 := by omega
  have d5 : (16 * hexVal c4 + hexVal c5) / 16 = hexVal c4 := by omega
  have d6 : (16 * hexVal c4 + hexVal c5) % 16 = hexVal c5 := by omega
  rw [d1, d2, d3, d4, d5, d6, hc0, hc1, hc2, hc3, hc4, hc5]

/-- Witness for `hex_roundtrip` on the concrete string `17AaF0`. -/
theorem hex_roundtrip_witness :
    rgbToHex (hexToRgb ['1', '7', 'A', 'a', 'F', '0']) =
      [toLowerChar '1', toLowerChar '7', toLowerChar 'A',
       toLowerChar 'a', toLowerChar 'F', toLowerChar '0'] :=
  hex_roundtrip '1' '7' 'A' 'a' 'F' '0' (by decide) (by decide) (by decide)
    (by decide) (by decide) (by decide)

/-! ### Claim C1: rgb → hsl → rgb round-trip

In exact rational arithmetic the round-trip is exact: the non-achromatic
branch reconstructs `q = max` and `p = min`, and the hue piecewise helper
returns each original normalized channel. The integer claim then follows
since `Math.round` is the identity on integers. -/

theorem hue2rgb_eval_first (p q t : ℚ) (h0 : 0 ≤ t) (h1 : t < 1/6) :
    hue2rgb p q t = p + (q - p) * 6 * t := by
  simp only [hue2rgb]
  rw [if_neg (not_lt.2 h0), if_neg (by linarith : ¬ t > 1), if_pos h1]

theorem hue2rgb_eval_q (p q t : ℚ) (h0 : 1/6 ≤ t) (h1 : t < 1/2) :
    hue2rgb p q t = q := by
  simp only [hue2rgb]
  rw [if_neg (by linarith : ¬ t < 0), if_neg (by linarith : ¬ t > 1),
    if_neg (by linarith : ¬ t < 1/6), if_pos h1]

theorem hue2rgb_eval_third (p q t : ℚ) (h0 : 1/2 ≤ t) (h1 : t < 2/3) :
    hue2rgb p q t = p + (q - p) * (2/3 - t) * 6 := by
  simp only [hue2rgb]
  rw [if_neg (by linarith : ¬ t < 0), if_neg (by linarith : ¬ t > 1),
    if_neg (by linarith : ¬ t < 1/6), if_neg (by linarith : ¬ t < 1/2), if_pos h1]

theorem hue2rgb_eval_p (p q t : ℚ) (h0 : 2/3 ≤ t) (h1 : t ≤ 1) :
    hue2rgb p q t = p := by
  simp only [hue2rgb]
  rw [if_neg (by linarith : ¬ t < 0), if_neg (by linarith : ¬ t > 1),
    if_neg (by linarith : ¬ t < 1/6), if_neg (by linarith : ¬ t < 1/2),
    if_neg (by linarith : ¬ t < 2/3)]

theorem hue2rgb_eval_negp (p q t : ℚ) (h0 : -(1/3) ≤ t) (h1 : t < 0) :
    hue2rgb p q t = p := by
  simp only [hue2rgb]
  rw [if_pos h1, if_neg (by linarith : ¬ t + 1 > 1),
    if_neg (by linarith : ¬ t + 1 < 1/6), if_neg (by linarith : ¬ t + 1 < 1/2),
    if_neg (by linarith : ¬ t + 1 < 2/3)]

theorem hue2rgb_eval_gt1_first (p q t : ℚ) (h0 : 1 < t) (h1 : t < 7/6) :
    hue2rgb p q t = p + (q - p) * 6 * (t - 1) := by
  simp only [hue2rgb]
  rw [if_neg (by linarith : ¬ t < 0), if_pos h0, if_pos (by linarith : t - 1 < 1/6)]

theorem hue2rgb_eval_gt1_q (p q t : ℚ) (h0 : 7/6 ≤ t) (h1 : t < 3/2) :
    hue2rgb p q t = q := by
  simp only [hue2rgb]
  rw [if_neg (by linarith : ¬ t < 0), if_pos (by linarith : t > 1),
    if_neg (by linarith : ¬ t - 1 < 1/6), if_pos (by linarith : t - 1 < 1/2)]

theorem s_pos (mx mn S : ℚ) (h0 : 0 ≤ mn) (hlt : mn < mx) (h1 : mx ≤ 1)
    (hS : S = if (mx + mn)/2 > 1/2 then (mx - mn)/(2 - mx - mn) else (mx - mn)/(mx + mn)) :
    0 < S := by
  subst hS
  split_ifs with h
  · exact div_pos (by linarith) (by linarith)
  · exact div_pos (by linarith) (by linarith)

theorem q_eq_max (mx mn S : ℚ) (h0 : 0 ≤ mn) (hlt : mn < mx) (h1 : mx ≤ 1)
    (hS : S = if (mx + mn)/2 > 1/2 then (mx - mn)/(2 - mx - mn) else (mx - mn)/(mx + mn)) :
    (if (mx + mn)/2 < 1/2 then (mx + mn)/2 * (1 + S)
     else (mx + mn)/2 + S - (mx + mn)/2 * S) = mx := by
  have hmx0 : 0 < mx := by linarith
  rcases lt_trichotomy (mx + mn) 1 with hc | hc | hc
  · rw [if_pos (by linarith : (mx + mn)/2 < 1/2)]
    rw [hS, if_neg (by linarith : ¬ (mx + mn)/2 > 1/2)]
    have hsum : mx + mn ≠ 0 := by linarith
    field_simp
    ring
  · rw [if_neg (by linarith : ¬ (mx + mn)/2 < 1/2)]
    rw [hS, if_neg (by linarith : ¬ (mx + mn)/2 > 1/2)]
    rw [hc]
    have hmn : mn = 1 - mx := by linarith
    subst hmn
    field_simp
    ring
  · rw [if_neg (by linarith : ¬ (mx + mn)/2 < 1/2)]
    rw [hS, if_pos (by linarith : (mx + mn)/2 > 1/2)]
    have hden : 2 - mx - mn ≠ 0 := ne_of_gt (by linarith)
    field_simp
    ring

theorem hslToRgb_given (H S L P Q : ℚ) (hS : S ≠ 0)
    (hQ : (if L < 1/2 then L * (1 + S) else L + S - L * S) = Q)
    (hP : 2 * L - Q = P) :
    hslToRgb ⟨H, S, L⟩ =
      ⟨(jround (hue2rgb P Q (H + 1/3) * 255) : ℚ),
       (jround (hue2rgb P Q H * 255) : ℚ),
       (jround (hue2rgb P Q (H - 1/3) * 255) : ℚ)⟩ := by
  subst hQ
  subst hP
  simp only [hslToRgb]
  rw [if_neg hS]


theorem hslToRgb_rgbToHsl (x y z : ℚ)
    (hx0 : 0 ≤ x) (hx1 : x ≤ 1) (hy0 : 0 ≤ y) (hy1 : y ≤ 1) (hz0 : 0 ≤ z) (hz1 : z ≤ 1) :
    hslToRgb (rgbToHsl ⟨x * 255, y * 255, z * 255⟩) =
      ⟨(jround (x * 255) : ℚ), (jround (y * 255) : ℚ), (jround (z * 255) : ℚ)⟩ := by
  have e1 : x * 255 / 255 = x := by field_simp
  have e2 : y * 255 / 255 = y := by field_simp
  have e3 : z * 255 / 255 = z := by field_simp
  simp only [rgbToHsl, e1, e2, e3]
  by_cases hmm : max x (max y z) = min x (min y z)
  · -- achromatic: all three channels coincide
    rw [if_pos hmm]
    have hxm : max x (max y z) = x :=
      le_antisymm (by rw [hmm]; exact min_le_left _ _) (le_max_left _ _)
    have hym : max x (max y z) = y :=
      le_antisymm (by rw [hmm]; exact le_trans (min_le_right _ _) (min_le_left _ _))
        (le_trans (le_max_left y z) (le_max_right x _))
    have hzm : max x (max y z) = z :=
      le_antisymm (by rw [hmm]; exact le_trans (min_le_right _ _) (min_le_right _ _))
        (le_trans (le_max_right y z) (le_max_right x _))
    have hmn_x : min x (min y z) = x := by rw [← hmm]; exact hxm
    rw [hxm, hmn_x, show (x + x)/2 = x from by ring]
    rw [hym.symm.trans hxm, hzm.symm.trans hxm]
    simp [hslToRgb]
  · rw [if_neg hmm]
    rcases le_or_lt z y with hzy | hyz
    · rcases le_or_lt y x with hyx | hxy
      · -- case A: z ≤ y ≤ x, red is max, blue is min
        have hmax : max x (max y z) = x := by rw [max_eq_left hzy]; exact max_eq_left hyx
        have hmin : min x (min y z) = z := by
          rw [min_eq_right hzy]; exact min_eq_right (le_trans hzy hyx)
        have hne : z < x := by
          rcases lt_or_eq_of_le (le_trans hzy hyx) with h | h
          · exact h
          · exact absurd (by rw [hmax, hmin]; exact h.symm) hmm
        have hd : 0 < x - z := sub_pos.2 hne
        rw [hmax, hmin]
        rw [if_pos (show x = x from rfl), if_neg (not_lt.2 hzy)]
        set S := if (x + z)/2 > 1/2 then (x - z)/(2 - x - z) else (x - z)/(x + z) with hSdef
        have hSpos : 0 < S := s_pos x z S hz0 hne hx1 hSdef
        have hQ := q_eq_max x z S hz0 hne hx1 hSdef
        rw [hslToRgb_given _ S _ z x (ne_of_gt hSpos) hQ (by ring)]
        set k := (y - z)/(x - z) with hk
        have hk0 : 0 ≤ k := by rw [hk]; exact div_nonneg (by linarith) hd.le
        have hk1 : k ≤ 1 := by rw [hk]; exact (div_le_one hd).2 (by linarith)
        have hdk : k * (x - z) = y - z := by rw [hk]; exact div_mul_cancel₀ _ (ne_of_gt hd)
        simp only [RGB.mk.injEq]
        refine ⟨?_, ?_, ?_⟩
        · rw [show ((k + 0)/6 + 1/3 : ℚ) = k/6 + 1/3 from by ring]
          rcases eq_or_lt_of_le hk1 with hke | hkl
          · rw [hke]
            rw [hue2rgb_eval_third z x _ (by norm_num) (by norm_num)]
            rw [show z + (x - z) * (2/3 - ((1:ℚ)/6 + 1/3)) * 6 = x from by ring]
          · rw [hue2rgb_eval_q z x _ (by linarith) (by linarith)]
        · rw [show ((k + 0)/6 : ℚ) = k/6 from by ring]
          rcases eq_or_lt_of_le hk1 with hke | hkl
          · rw [hke]
            rw [hue2rgb_eval_q z x _ (by norm_num) (by norm_num)]
            have hxy2 : y = x := by
              have h2 := hdk
              rw [hke, one_mul] at h2
              linarith
            rw [hxy2]
          · rw [hue2rgb_eval_first z x _ (by linarith) (by linarith)]
            rw [show z + (x - z) * 6 * (k/6) = z + k * (x - z) from by ring, hdk]
            rw [show z + (y - z) = y from by ring]
        · rw [show ((k + 0)/6 - 1/3 : ℚ) = k/6 - 1/3 from by ring]
          rw [hue2rgb_eval_negp z x _ (by linarith) (by linarith)]
      · -- case G: x < y, z <= y: green is max
        have hmax : max x (max y z) = y := by
          rw [max_eq_left hzy]; exact max_eq_right (le_of_lt hxy)
        rcases le_or_lt x z with hxz | hzx2
        · -- G1: x is min
          have hmin : min x (min y z) = x := by
            rw [min_eq_right hzy]; exact min_eq_left hxz
          have hd : 0 < y - x := sub_pos.2 hxy
          rw [hmax, hmin]
          rw [if_neg (ne_of_lt hxy), if_pos (show y = y from rfl)]
          set S := if (y + x)/2 > 1/2 then (y - x)/(2 - y - x) else (y - x)/(y + x) with hSdef
          have hSpos : 0 < S := s_pos y x S hx0 hxy hy1 hSdef
          have hQ := q_eq_max y x S hx0 hxy hy1 hSdef
          rw [hslToRgb_given _ S _ x y (ne_of_gt hSpos) hQ (by ring)]
          set k := (z - x)/(y - x) with hk
          have hk0 : 0 ≤ k := by rw [hk]; exact div_nonneg (by linarith) hd.le
          have hk1 : k ≤ 1 := by rw [hk]; exact (div_le_one hd).2 (by linarith)
          have hdk : k * (y - x) = z - x := by rw [hk]; exact div_mul_cancel₀ _ (ne_of_gt hd)
          simp only [RGB.mk.injEq]
          refine ⟨?_, ?_, ?_⟩
          · rw [hue2rgb_eval_p x y _ (by linarith) (by linarith)]
          · rcases eq_or_lt_of_le hk1 with hke | hkl
            · rw [hke]
              rw [hue2rgb_eval_third x y _ (by norm_num) (by norm_num)]
              rw [show x + (y - x) * (2/3 - ((1:ℚ) + 2)/6) * 6 = y from by ring]
            · rw [hue2rgb_eval_q x y _ (by linarith) (by linarith)]
          · rw [show ((k + 2)/6 - 1/3 : ℚ) = k/6 from by ring]
            rcases eq_or_lt_of_le hk1 with hke | hkl
            · rw [hke]
              rw [hue2rgb_eval_q x y _ (by norm_num) (by norm_num)]
              have hzy2 : z = y := by
                have h2 := hdk
                rw [hke, one_mul] at h2
                linarith
              rw [hzy2]
            · rw [hue2rgb_eval_first x y _ (by linarith) (by linarith)]
              rw [show x + (y - x) * 6 * (k/6) = x + k * (y - x) from by ring, hdk]
              rw [show x + (z - x) = z from by ring]
        · -- G2: z is min
          have hmin : min x (min y z) = z := by
            rw [min_eq_right hzy]; exact min_eq_right (le_of_lt hzx2)
          have hd : 0 < y - z := by linarith
          rw [hmax, hmin]
          rw [if_neg (ne_of_lt hxy), if_pos (show y = y from rfl)]
          set S := if (y + z)/2 > 1/2 then (y - z)/(2 - y - z) else (y - z)/(y + z) with hSdef
          have hSpos : 0 < S := s_pos y z S hz0 (by linarith) hy1 hSdef
          have hQ := q_eq_max y z S hz0 (by linarith) hy1 hSdef
          rw [hslToRgb_given _ S _ z y (ne_of_gt hSpos) hQ (by ring)]
          set k := (z - x)/(y - z) with hk
          have hkneg : k < 0 := by
            rw [hk]; exact div_neg_of_neg_of_pos (by linarith) hd
          have hkm1 : -1 < k := by
            rw [hk, lt_div_iff₀ hd]; linarith
          have hdk : k * (y - z) = z - x := by rw [hk]; exact div_mul_cancel₀ _ (ne_of_gt hd)
          simp only [RGB.mk.injEq]
          refine ⟨?_, ?_, ?_⟩
          · rw [hue2rgb_eval_third z y _ (by linarith) (by linarith)]
            rw [show z + (y - z) * (2/3 - ((k + 2)/6 + 1/3)) * 6 = z - k * (y - z) from by ring,
              hdk, show z - (z - x) = x from by ring]
          · rw [hue2rgb_eval_q z y _ (by linarith) (by linarith)]
          · rw [show ((k + 2)/6 - 1/3 : ℚ) = k/6 from by ring]
            rw [hue2rgb_eval_negp z y _ (by linarith) (by linarith)]
    · -- z > y
      rcases le_or_lt z x with hzx | hxz
      · -- case R2: y < z <= x, red is max, green is min
        have hmax : max x (max y z) = x := by
          rw [max_eq_right (le_of_lt hyz)]; exact max_eq_left hzx
        have hmin : min x (min y z) = y := by
          rw [min_eq_left (le_of_lt hyz)]; exact min_eq_right (by linarith)
        have hd : 0 < x - y := by linarith
        rw [hmax, hmin]
        rw [if_pos (show x = x from rfl), if_pos hyz]
        set S := if (x + y)/2 > 1/2 then (x - y)/(2 - x - y) else (x - y)/(x + y) with hSdef
        have hSpos : 0 < S := s_pos x y S hy0 (by linarith) hx1 hSdef
        have hQ := q_eq_max x y S hy0 (by linarith) hx1 hSdef
        rw [hslToRgb_given _ S _ y x (ne_of_gt hSpos) hQ (by ring)]
        set k := (y - z)/(x - y) with hk
        have hkneg : k < 0 := by
          rw [hk]; exact div_neg_of_neg_of_pos (by linarith) hd
        have hkm1 : -1 ≤ k := by
          rw [hk, le_div_iff₀ hd]; linarith
        have hdk : k * (x - y) = y - z := by rw [hk]; exact div_mul_cancel₀ _ (ne_of_gt hd)
        simp only [RGB.mk.injEq]
        refine ⟨?_, ?_, ?_⟩
        · rw [hue2rgb_eval_gt1_q y x _ (by linarith) (by linarith)]
        · rw [hue2rgb_eval_p y x _ (by linarith) (by linarith)]
        · rw [hue2rgb_eval_third y x _ (by linarith) (by linarith)]
          rw [show y + (x - y) * (2/3 - ((k + 6)/6 - 1/3)) * 6 = y - k * (x - y) from by ring,
            hdk, show y - (y - z) = z from by ring]
      · -- case D: y < z, x < z: blue is max
        have hmax : max x (max y z) = z := by
          rw [max_eq_right (le_of_lt hyz)]; exact max_eq_right (le_of_lt hxz)
        rcases le_or_lt y x with hyx2 | hxy2
        · -- D1: y is min
          have hmin : min x (min y z) = y := by
            rw [min_eq_left (le_of_lt hyz)]; exact min_eq_right hyx2
          have hd : 0 < z - y := by linarith
          rw [hmax, hmin]
          rw [if_neg (ne_of_lt hxz), if_neg (ne_of_lt hyz)]
          set S := if (z + y)/2 > 1/2 then (z - y)/(2 - z - y) else (z - y)/(z + y) with hSdef
          have hSpos : 0 < S := s_pos z y S hy0 (by linarith) hz1 hSdef
          have hQ := q_eq_max z y S hy0 (by linarith) hz1 hSdef
          rw [hslToRgb_given _ S _ y z (ne_of_gt hSpos) hQ (by ring)]
          set k := (x - y)/(z - y) with hk
          have hk0 : 0 ≤ k := by rw [hk]; exact div_nonneg (by linarith) hd.le
          have hk1 : k < 1 := by rw [hk, div_lt_one hd]; linarith
          have hdk : k * (z - y) = x - y := by rw [hk]; exact div_mul_cancel₀ _ (ne_of_gt hd)
          simp only [RGB.mk.injEq]
          refine ⟨?_, ?_, ?_⟩
          · rcases eq_or_lt_of_le hk0 with hke | hkl
            · rw [← hke]
              rw [hue2rgb_eval_p y z _ (by norm_num) (by norm_num)]
              have hxy3 : x = y := by
                have h2 := hdk
                rw [← hke, zero_mul] at h2
                linarith
              rw [hxy3]
            · rw [hue2rgb_eval_gt1_first y z _ (by linarith) (by linarith)]
              rw [show y + (z - y) * 6 * ((k + 4)/6 + 1/3 - 1) = y + k * (z - y) from by ring,
                hdk, show y + (x - y) = x from by ring]
          · rw [hue2rgb_eval_p y z _ (by linarith) (by linarith)]
          · rw [hue2rgb_eval_q y z _ (by linarith) (by linarith)]
        · -- D2: x is min
          have hmin : min x (min y z) = x := by
            rw [min_eq_left (le_of_lt hyz)]; exact min_eq_left (le_of_lt hxy2)
          have hd : 0 < z - x := by linarith
          rw [hmax, hmin]
          rw [if_neg (ne_of_lt hxz), if_neg (ne_of_lt hyz)]
          set S := if (z + x)/2 > 1/2 then (z - x)/(2 - z - x) else (z - x)/(z + x) with hSdef
          have hSpos : 0 < S := s_pos z x S hx0 hxz hz1 hSdef
          have hQ := q_eq_max z x S hx0 hxz hz1 hSdef
          rw [hslToRgb_given _ S _ x z (ne_of_gt hSpos) hQ (by ring)]
          set k := (x - y)/(z - x) with hk
          have hkneg : k < 0 := by
            rw [hk]; exact div_neg_of_neg_of_pos (by linarith) hd
          have hkm1 : -1 < k := by
            rw [hk, lt_div_iff₀ hd]; linarith
          have hdk : k * (z - x) = x - y := by rw [hk]; exact div_mul_cancel₀ _ (ne_of_gt hd)
          simp only [RGB.mk.injEq]
          refine ⟨?_, ?_, ?_⟩
          · rw [hue2rgb_eval_p x z _ (by linarith) (by linarith)]
          · rw [hue2rgb_eval_third x z _ (by linarith) (by linarith)]
            rw [show x + (z - x) * (2/3 - (k + 4)/6) * 6 = x - k * (z - x) from by ring,
              hdk, show x - (x - y) = y from by ring]
          · rw [hue2rgb_eval_q x z _ (by linarith) (by linarith)]


theorem roundtrip_exact_nat (R G B : ℕ) (hR : R ≤ 255) (hG : G ≤ 255) (hB : B ≤ 255) :
    hslToRgb (rgbToHsl ⟨(R : ℚ), (G : ℚ), (B : ℚ)⟩) = ⟨(R : ℚ), (G : ℚ), (B : ℚ)⟩ := by
  have h255 : (0 : ℚ) < 255 := by norm_num
  have eR : ((R : ℚ)/255) * 255 = (R : ℚ) := by field_simp
  have eG : ((G : ℚ)/255) * 255 = (G : ℚ) := by field_simp
  have eB : ((B : ℚ)/255) * 255 = (B : ℚ) := by field_simp
  have key := hslToRgb_rgbToHsl ((R : ℚ)/255) ((G : ℚ)/255) ((B : ℚ)/255)
    (by positivity) ((div_le_one h255).2 (by exact_mod_cast hR))
    (by positivity) ((div_le_one h255).2 (by exact_mod_cast hG))
    (by positivity) ((div_le_one h255).2 (by exact_mod_cast hB))
  rw [eR, eG, eB] at key
  rw [key]
  simp [jround_natCast]

/-- Claim C1: for every RGB triple with integer components in 0..255,
`hslToRgb(rgbToHsl(rgb))` differs from the original by at most 1 per
channel (in exact rational arithmetic the round-trip is in fact exact). -/
theorem rgb_hsl_roundtrip (R G B : ℕ) (hR : R ≤ 255) (hG : G ≤ 255) (hB : B ≤ 255) :
    |(hslToRgb (rgbToHsl ⟨(R : ℚ), (G : ℚ), (B : ℚ)⟩)).r - (R : ℚ)| ≤ 1 ∧
    |(hslToRgb (rgbToHsl ⟨(R : ℚ), (G : ℚ), (B : ℚ)⟩)).g - (G : ℚ)| ≤ 1 ∧
    |(hslToRgb (rgbToHsl ⟨(R : ℚ), (G : ℚ), (B : ℚ)⟩)).b - (B : ℚ)| ≤ 1 := by
  rw [roundtrip_exact_nat R G B hR hG hB]
  norm_num

/-- Witness for `rgb_hsl_roundtrip` at the concrete triple (12, 200, 57). -/
theorem rgb_hsl_roundtrip_witness :
    |(hslToRgb (rgbToHsl ⟨((12 : ℕ) : ℚ), ((200 : ℕ) : ℚ), ((57 : ℕ) : ℚ)⟩)).r - ((12 : ℕ) : ℚ)| ≤ 1 ∧
    |(hslToRgb (rgbToHsl ⟨((12 : ℕ) : ℚ), ((200 : ℕ) : ℚ), ((57 : ℕ) : ℚ)⟩)).g - ((200 : ℕ) : ℚ)| ≤ 1 ∧
    |(hslToRgb (rgbToHsl ⟨((12 : ℕ) : ℚ), ((200 : ℕ) : ℚ), ((57 : ℕ) : ℚ)⟩)).b - ((57 : ℕ) : ℚ)| ≤ 1 :=
  rgb_hsl_roundtrip 12 200 57 (by omega) (by omega) (by omega)

/-! ### Claim C4: mix -/

/-- Validity of a 6-hex-digit string, used by the mix claim. -/
def validHex6 (l : List Char) : Prop := l.length = 6 ∧ ∀ c ∈ l, isHexDigit c = true

theorem list_six (l : List Char) (h : l.length = 6) :
    ∃ a0 a1 a2 a3 a4 a5 : Char, l = [a0, a1, a2, a3, a4, a5] := by
  rcases l with _ | ⟨a0, _ | ⟨a1, _ | ⟨a2, _ | ⟨a3, _ | ⟨a4, _ | ⟨a5, t⟩⟩⟩⟩⟩⟩ <;> simp at h
  subst h
  exact ⟨a0, a1, a2, a3, a4, a5, rfl⟩

theorem any_banned_false_of_bytes (n0 n1 n2 : ℕ) (h0 : n0 ≤ 255) (h1 : n1 ≤ 255) (h2 : n2 ≤ 255) :
    ([hexChar (n0 / 16), hexChar (n0 % 16), hexChar (n1 / 16), hexChar (n1 % 16),
      hexChar (n2 / 16), hexChar (n2 % 16)]).any isBannedLetter = false := by
  simp only [List.any_cons, List.any_nil, Bool.or_false]
  rw [isBannedLetter_hexChar (n0 / 16) (by omega), isBannedLetter_hexChar (n0 % 16) (by omega),
    isBannedLetter_hexChar (n1 / 16) (by omega), isBannedLetter_hexChar (n1 % 16) (by omega),
    isBannedLetter_hexChar (n2 / 16) (by omega), isBannedLetter_hexChar (n2 % 16) (by omega)]
  rfl

theorem stripHash_of_ne (c : Char) (t : List Char) (h : c ≠ '#') :
    stripHash (c :: t) = c :: t := by
  simp [stripHash, h]

theorem fromHex_bytes (n0 n1 n2 : ℕ) (h0 : n0 ≤ 255) (h1 : n1 ≤ 255) (h2 : n2 ≤ 255) :
    fromHex (padStart2 (intToHex16 (n0 : ℤ)) ++ padStart2 (intToHex16 (n1 : ℤ)) ++
        padStart2 (intToHex16 (n2 : ℤ))) =
      some ⟨some (rgbToHex ⟨(n0 : ℚ), (n1 : ℚ), (n2 : ℚ)⟩), none, none, none, 1⟩ := by
  have hfh : padStart2 (intToHex16 (n0 : ℤ)) ++ padStart2 (intToHex16 (n1 : ℤ)) ++
      padStart2 (intToHex16 (n2 : ℤ)) =
      [hexChar (n0 / 16), hexChar (n0 % 16), hexChar (n1 / 16), hexChar (n1 % 16),
       hexChar (n2 / 16), hexChar (n2 % 16)] := by
    rw [byteChars n0 (by omega), byteChars n1 (by omega), byteChars n2 (by omega)]
    rfl
  rw [hfh]
  have hnorm := normalizeHex_six
    [hexChar (n0 / 16), hexChar (n0 % 16), hexChar (n1 / 16), hexChar (n1 % 16),
     hexChar (n2 / 16), hexChar (n2 % 16)]
    (hexChar (n0 / 16)) (hexChar (n0 % 16)) (hexChar (n1 / 16)) (hexChar (n1 % 16))
    (hexChar (n2 / 16)) (hexChar (n2 % 16))
    (any_banned_false_of_bytes n0 n1 n2 h0 h1 h2)
    (stripHash_of_ne _ _ (hexChar_ne_hash (n0 / 16) (by omega)))
    (hexChar_ne_hash (n0 / 16) (by omega))
  rw [rgbToHex_bytes n0 n1 n2 h0 h1 h2]
  unfold fromHex
  rw [hnorm]

theorem mix_core (n0 n1 n2 : ℕ) (h0 : n0 ≤ 255) (h1 : n1 ≤ 255) (h2 : n2 ≤ 255) (al : ℚ) :
    (fromHex (padStart2 (intToHex16 (n0 : ℤ)) ++ padStart2 (intToHex16 (n1 : ℤ)) ++
        padStart2 (intToHex16 (n2 : ℤ)))).map (fun c => (withAlpha c al).1) =
      some ⟨none, none, some (rgbToHsl ⟨(n0 : ℚ), (n1 : ℚ), (n2 : ℚ)⟩), none, al⟩ ∧
    hexValue (⟨none, none, some (rgbToHsl ⟨(n0 : ℚ), (n1 : ℚ), (n2 : ℚ)⟩), none, al⟩ : Color) =
      padStart2 (intToHex16 (n0 : ℤ)) ++ padStart2 (intToHex16 (n1 : ℤ)) ++
        padStart2 (intToHex16 (n2 : ℤ)) ∧
    rgbValue (⟨none, none, some (rgbToHsl ⟨(n0 : ℚ), (n1 : ℚ), (n2 : ℚ)⟩), none, al⟩ : Color) =
      ⟨(n0 : ℚ), (n1 : ℚ), (n2 : ℚ)⟩ := by
  refine ⟨?_, ?_, ?_⟩
  · rw [fromHex_bytes n0 n1 n2 h0 h1 h2]
    show some ((withAlpha ⟨some (rgbToHex ⟨(n0 : ℚ), (n1 : ℚ), (n2 : ℚ)⟩), none, none, none, 1⟩ al).1) = _
    have hcl : (withAlpha ⟨some (rgbToHex ⟨(n0 : ℚ), (n1 : ℚ), (n2 : ℚ)⟩), none, none, none, 1⟩ al).1 =
        (⟨none, none, some (hexToHsl (rgbToHex ⟨(n0 : ℚ), (n1 : ℚ), (n2 : ℚ)⟩)), none, al⟩ : Color) := rfl
    rw [hcl, hexToHsl_rgbToHex n0 n1 n2 h0 h1 h2]
  · have hv : hexValue (⟨none, none, some (rgbToHsl ⟨(n0 : ℚ), (n1 : ℚ), (n2 : ℚ)⟩), none, al⟩ : Color) =
        rgbToHex (hslToRgb (rgbToHsl ⟨(n0 : ℚ), (n1 : ℚ), (n2 : ℚ)⟩)) := rfl
    rw [hv, roundtrip_exact_nat n0 n1 n2 h0 h1 h2, rgbToHex_bytes n0 n1 n2 h0 h1 h2,
      byteChars n0 (by omega), byteChars n1 (by omega), byteChars n2 (by omega)]
    rfl
  · have hv : rgbValue (⟨none, none, some (rgbToHsl ⟨(n0 : ℚ), (n1 : ℚ), (n2 : ℚ)⟩), none, al⟩ : Color) =
        hslToRgb (rgbToHsl ⟨(n0 : ℚ), (n1 : ℚ), (n2 : ℚ)⟩) := rfl
    rw [hv, roundtrip_exact_nat n0 n1 n2 h0 h1 h2]

theorem mixPair_eq (h1 h2 : List Char) (w : ℚ) (i : ℕ) :
    mixPair h1 h2 w i =
      padStart2 (intToHex16 ⌊(parseHexNat ((h2.drop i).take 2) : ℚ) +
        ((parseHexNat ((h1.drop i).take 2) : ℚ) -
         (parseHexNat ((h2.drop i).take 2) : ℚ)) * (w / 100)⌋) := rfl

/-- Claim C4: `Color.mix` blends each hex byte pair as
`floor(valueB + (valueA - valueB) * weight/100)` re-encoded zero-padded,
blends alpha linearly, and `mix(BLACK, WHITE, 50).rgb` is `(127,127,127)`. -/
theorem mix_spec :
    (∀ (cA cB : Color) (w : ℚ), validHex6 (hexValue cA) → validHex6 (hexValue cB) →
      0 ≤ w → w ≤ 100 →
      ∃ res, mix cA cB w = some res ∧
        res.alpha = cB.alpha + (cA.alpha - cB.alpha) * (w / 100) ∧
        hexValue res =
          padStart2 (intToHex16 ⌊(parseHexNat ((hexValue cB).take 2) : ℚ) +
            ((parseHexNat ((hexValue cA).take 2) : ℚ) -
             (parseHexNat ((hexValue cB).take 2) : ℚ)) * (w / 100)⌋) ++
          padStart2 (intToHex16 ⌊(parseHexNat (((hexValue cB).drop 2).take 2) : ℚ) +
            ((parseHexNat (((hexValue cA).drop 2).take 2) : ℚ) -
             (parseHexNat (((hexValue cB).drop 2).take 2) : ℚ)) * (w / 100)⌋) ++
          padStart2 (intToHex16 ⌊(parseHexNat (((hexValue cB).drop 4).take 2) : ℚ) +
            ((parseHexNat (((hexValue cA).drop 4).take 2) : ℚ) -
             (parseHexNat (((hexValue cB).drop 4).take 2) : ℚ)) * (w / 100)⌋)) ∧
    (∃ res, mix BLACK WHITE 50 = some res ∧ rgbValue res = ⟨127, 127, 127⟩) := by
  have floor_byte : ∀ (vA vB : ℕ) (w : ℚ), vA ≤ 255 → vB ≤ 255 → 0 ≤ w → w ≤ 100 →
      0 ≤ ⌊(vB : ℚ) + ((vA : ℚ) - (vB : ℚ)) * (w / 100)⌋ ∧
      ⌊(vB : ℚ) + ((vA : ℚ) - (vB : ℚ)) * (w / 100)⌋ ≤ 255 := by
    intro vA vB w hA hB hw0 hw1
    have ht0 : 0 ≤ w / 100 := by positivity
    have ht1 : w / 100 ≤ 1 := by
      rw [div_le_one (by norm_num : (0:ℚ) < 100)]
      linarith
    have hvA0 : (0 : ℚ) ≤ (vA : ℚ) := by positivity
    have hvB0 : (0 : ℚ) ≤ (vB : ℚ) := by positivity
    have hvA1 : (vA : ℚ) ≤ 255 := by exact_mod_cast hA
    have hvB1 : (vB : ℚ) ≤ 255 := by exact_mod_cast hB
    have hval0 : (0 : ℚ) ≤ (vB : ℚ) + ((vA : ℚ) - (vB : ℚ)) * (w / 100) := by
      nlinarith [mul_nonneg hvA0 ht0, mul_nonneg hvB0 (sub_nonneg.2 ht1)]
    have hval1 : (vB : ℚ) + ((vA : ℚ) - (vB : ℚ)) * (w / 100) ≤ 255 := by
      nlinarith [mul_nonneg (sub_nonneg.2 hvA1) ht0, mul_nonneg (sub_nonneg.2 hvB1) (sub_nonneg.2 ht1)]
    constructor
    · exact Int.le_floor.2 (by exact_mod_cast hval0)
    · have hle := Int.floor_le ((vB : ℚ) + ((vA : ℚ) - (vB : ℚ)) * (w / 100))
      have : (⌊(vB : ℚ) + ((vA : ℚ) - (vB : ℚ)) * (w / 100)⌋ : ℚ) ≤ 255 := le_trans hle hval1
      exact_mod_cast this
  constructor
  · intro cA cB w hvA hvB hw0 hw1
    obtain ⟨hlenA, hmemA⟩ := hvA
    obtain ⟨hlenB, hmemB⟩ := hvB
    obtain ⟨a0, a1, a2, a3, a4, a5, hA⟩ := list_six _ hlenA
    obtain ⟨b0, b1, b2, b3, b4, b5, hB⟩ := list_six _ hlenB
    have hdig : ∀ c ∈ [a0, a1, a2, a3, a4, a5], hexVal c < 16 := by
      intro c hc
      exact (hexDigit_facts c (hmemA c (by rw [hA]; exact hc))).1
    have hdigB : ∀ c ∈ [b0, b1, b2, b3, b4, b5], hexVal c < 16 := by
      intro c hc
      exact (hexDigit_facts c (hmemB c (by rw [hB]; exact hc))).1
    have hA0 : parseHexNat ((hexValue cA).take 2) ≤ 255 := by
      rw [hA]
      show parseHexNat [a0, a1] ≤ 255
      rw [parseHexNat_pair]
      have h1 := hdig a0 (by simp)
      have h2 := hdig a1 (by simp)
      omega
    have hA2 : parseHexNat (((hexValue cA).drop 2).take 2) ≤ 255 := by
      rw [hA]
      show parseHexNat [a2, a3] ≤ 255
      rw [parseHexNat_pair]
      have h1 := hdig a2 (by simp)
      have h2 := hdig a3 (by simp)
      omega
    have hA4 : parseHexNat (((hexValue cA).drop 4).take 2) ≤ 255 := by
      rw [hA]
      show parseHexNat [a4, a5] ≤ 255
      rw [parseHexNat_pair]
      have h1 := hdig a4 (by simp)
      have h2 := hdig a5 (by simp)
      omega
    have hB0 : parseHexNat ((hexValue cB).take 2) ≤ 255 := by
      rw [hB]
      show parseHexNat [b0, b1] ≤ 255
      rw [parseHexNat_pair]
      have h1 := hdigB b0 (by simp)
      have h2 := hdigB b1 (by simp)
      omega
    have hB2 : parseHexNat (((hexValue cB).drop 2).take 2) ≤ 255 := by
      rw [hB]
      show parseHexNat [b2, b3] ≤ 255
      rw [parseHexNat_pair]
      have h1 := hdigB b2 (by simp)
      have h2 := hdigB b3 (by simp)
      omega
    have hB4 : parseHexNat (((hexValue cB).drop 4).take 2) ≤ 255 := by
      rw [hB]
      show parseHexNat [b4, b5] ≤ 255
      rw [parseHexNat_pair]
      have h1 := hdigB b4 (by simp)
      have h2 := hdigB b5 (by simp)
      omega
    obtain ⟨hf00, hf01⟩ := floor_byte _ _ w hA0 hB0 hw0 hw1
    obtain ⟨hf20, hf21⟩ := floor_byte _ _ w hA2 hB2 hw0 hw1
    obtain ⟨hf40, hf41⟩ := floor_byte _ _ w hA4 hB4 hw0 hw1
    have hn0 : ((⌊(parseHexNat ((hexValue cB).take 2) : ℚ) +
        ((parseHexNat ((hexValue cA).take 2) : ℚ) -
         (parseHexNat ((hexValue cB).take 2) : ℚ)) * (w / 100)⌋).toNat : ℤ) =
        ⌊(parseHexNat ((hexValue cB).take 2) : ℚ) +
        ((parseHexNat ((hexValue cA).take 2) : ℚ) -
         (parseHexNat ((hexValue cB).take 2) : ℚ)) * (w / 100)⌋ :=
      Int.toNat_of_nonneg hf00
    have hn2 : ((⌊(parseHexNat (((hexValue cB).drop 2).take 2) : ℚ) +
        ((parseHexNat (((hexValue cA).drop 2).take 2) : ℚ) -
         (parseHexNat (((hexValue cB).drop 2).take 2) : ℚ)) * (w / 100)⌋).toNat : ℤ) =
        ⌊(parseHexNat (((hexValue cB).drop 2).take 2) : ℚ) +
        ((parseHexNat (((hexValue cA).drop 2).take 2) : ℚ) -
         (parseHexNat (((hexValue cB).drop 2).take 2) : ℚ)) * (w / 100)⌋ :=
      Int.toNat_of_nonneg hf20
    have hn4 : ((⌊(parseHexNat (((hexValue cB).drop 4).take 2) : ℚ) +
        ((parseHexNat (((hexValue cA).drop 4).take 2) : ℚ) -
         (parseHexNat (((hexValue cB).drop 4).take 2) : ℚ)) * (w / 100)⌋).toNat : ℤ) =
        ⌊(parseHexNat (((hexValue cB).drop 4).take 2) : ℚ) +
        ((parseHexNat (((hexValue cA).drop 4).take 2) : ℚ) -
         (parseHexNat (((hexValue cB).drop 4).take 2) : ℚ)) * (w / 100)⌋ :=
      Int.toNat_of_nonneg hf40
    have hmixeq : mix cA cB w =
        (fromHex (mixPair (hexValue cA) (hexValue cB) w 0 ++
            mixPair (hexValue cA) (hexValue cB) w 2 ++
            mixPair (hexValue cA) (hexValue cB) w 4)).map
          (fun c => (withAlpha c (cB.alpha + (cA.alpha - cB.alpha) * (w / 100))).1) := rfl
    rw [mixPair_eq, mixPair_eq, mixPair_eq] at hmixeq
    simp only [List.drop_zero] at hmixeq
    rw [hmixeq, ← hn0, ← hn2, ← hn4]
    set m0 := (⌊(parseHexNat ((hexValue cB).take 2) : ℚ) +
        ((parseHexNat ((hexValue cA).take 2) : ℚ) -
         (parseHexNat ((hexValue cB).take 2) : ℚ)) * (w / 100)⌋).toNat with hm0
    set m2 := (⌊(parseHexNat (((hexValue cB).drop 2).take 2) : ℚ) +
        ((parseHexNat (((hexValue cA).drop 2).take 2) : ℚ) -
         (parseHexNat (((hexValue cB).drop 2).take 2) : ℚ)) * (w / 100)⌋).toNat with hm2
    set m4 := (⌊(parseHexNat (((hexValue cB).drop 4).take 2) : ℚ) +
        ((parseHexNat (((hexValue cA).drop 4).take 2) : ℚ) -
         (parseHexNat (((hexValue cB).drop 4).take 2) : ℚ)) * (w / 100)⌋).toNat with hm4
    have hm0le : m0 ≤ 255 := by omega
    have hm2le : m2 ≤ 255 := by omega
    have hm4le : m4 ≤ 255 := by omega
    obtain ⟨hc1, hc2, hc3⟩ := mix_core m0 m2 m4 hm0le hm2le hm4le
      (cB.alpha + (cA.alpha - cB.alpha) * (w / 100))
    refine ⟨_, hc1, rfl, ?_⟩
    rw [hc2, hn0, hn2, hn4]
  · have hfl : ⌊((255 : ℕ) : ℚ) + (((0 : ℕ) : ℚ) - ((255 : ℕ) : ℚ)) * ((50 : ℚ) / 100)⌋ =
        ((127 : ℕ) : ℤ) := by
      have hv : ((255 : ℕ) : ℚ) + (((0 : ℕ) : ℚ) - ((255 : ℕ) : ℚ)) * ((50 : ℚ) / 100) =
          255 / 2 := by
        push_cast
        norm_num
      rw [hv, Int.floor_eq_iff]
      constructor
      · push_cast
        norm_num
      · push_cast
        norm_num
    have hpair : ∀ i : ℕ, mixPair (hexValue BLACK) (hexValue WHITE) 50 i =
        padStart2 (intToHex16 ⌊((parseHexNat (((hexValue WHITE).drop i).take 2) : ℕ) : ℚ) +
          (((parseHexNat (((hexValue BLACK).drop i).take 2) : ℕ) : ℚ) -
           ((parseHexNat (((hexValue WHITE).drop i).take 2) : ℕ) : ℚ)) * ((50 : ℚ) / 100)⌋) :=
      fun i => mixPair_eq _ _ _ i
    have hp0 : mixPair (hexValue BLACK) (hexValue WHITE) 50 0 =
        padStart2 (intToHex16 ((127 : ℕ) : ℤ)) := by
      rw [hpair 0]
      have e1 : (parseHexNat (((hexValue WHITE).drop 0).take 2) : ℕ) = 255 := rfl
      have e2 : (parseHexNat (((hexValue BLACK).drop 0).take 2) : ℕ) = 0 := rfl
      rw [e1, e2, hfl]
    have hp2 : mixPair (hexValue BLACK) (hexValue WHITE) 50 2 =
        padStart2 (intToHex16 ((127 : ℕ) : ℤ)) := by
      rw [hpair 2]
      have e1 : (parseHexNat (((hexValue WHITE).drop 2).take 2) : ℕ) = 255 := rfl
      have e2 : (parseHexNat (((hexValue BLACK).drop 2).take 2) : ℕ) = 0 := rfl
      rw [e1, e2, hfl]
    have hp4 : mixPair (hexValue BLACK) (hexValue WHITE) 50 4 =
        padStart2 (intToHex16 ((127 : ℕ) : ℤ)) := by
      rw [hpair 4]
      have e1 : (parseHexNat (((hexValue WHITE).drop 4).take 2) : ℕ) = 255 := rfl
      have e2 : (parseHexNat (((hexValue BLACK).drop 4).take 2) : ℕ) = 0 := rfl
      rw [e1, e2, hfl]
    have hmixeq : mix BLACK WHITE 50 =
        (fromHex (mixPair (hexValue BLACK) (hexValue WHITE) 50 0 ++
            mixPair (hexValue BLACK) (hexValue WHITE) 50 2 ++
            mixPair (hexValue BLACK) (hexValue WHITE) 50 4)).map
          (fun c => (withAlpha c (WHITE.alpha + (BLACK.alpha - WHITE.alpha) * ((50 : ℚ) / 100))).1) :=
      rfl
    rw [hp0, hp2, hp4] at hmixeq
    obtain ⟨hc1, hc2, hc3⟩ := mix_core 127 127 127 (by omega) (by omega) (by omega)
      (WHITE.alpha + (BLACK.alpha - WHITE.alpha) * ((50 : ℚ) / 100))
    refine ⟨_, hmixeq.trans hc1, ?_⟩
    rw [hc3]
    norm_num

/-- Witness for `mix_spec`: its general part applied to `BLACK`, `WHITE`
and weight 50, with the validity hypotheses discharged by `decide`. -/
theorem mix_spec_witness :
    ∃ res, mix BLACK WHITE 50 = some res ∧
      res.alpha = WHITE.alpha + (BLACK.alpha - WHITE.alpha) * ((50 : ℚ) / 100) ∧
      hexValue res =
        padStart2 (intToHex16 ⌊(parseHexNat ((hexValue WHITE).take 2) : ℚ) +
          ((parseHexNat ((hexValue BLACK).take 2) : ℚ) -
           (parseHexNat ((hexValue WHITE).take 2) : ℚ)) * ((50 : ℚ) / 100)⌋) ++
        padStart2 (intToHex16 ⌊(parseHexNat (((hexValue WHITE).drop 2).take 2) : ℚ) +
          ((parseHexNat (((hexValue BLACK).drop 2).take 2) : ℚ) -
           (parseHexNat (((hexValue WHITE).drop 2).take 2) : ℚ)) * ((50 : ℚ) / 100)⌋) ++
        padStart2 (intToHex16 ⌊(parseHexNat (((hexValue WHITE).drop 4).take 2) : ℚ) +
          ((parseHexNat (((hexValue BLACK).drop 4).take 2) : ℚ) -
           (parseHexNat (((hexValue WHITE).drop 4).take 2) : ℚ)) * ((50 : ℚ) / 100)⌋) :=
  mix_spec.1 BLACK WHITE 50 (by constructor <;> decide) (by constructor <;> decide)
    (by norm_num) (by norm_num)

end ColorTs
